import Mathlib

/-!
# sh-cloud-app-be: file storage orchestration

A shallow embedding of `src/config/ftp.js` (the `FTPManager` wrapper) and of the
handlers of `src/routes/files.js` and `src/routes/auth.js` that touch file and
folder records.

The handlers are asynchronous JavaScript functions acting on three stores: the
relational metadata (Sequelize models `User`, `Folder`, `File`), the remote FTP
server, and the local disk.  Here every handler is a pure function
`Env → request → World → Response × World`:

* `World` holds the three stores, the set of open FTP connections and a log of
  the external calls made so far;
* `Env` is the part of the outside world the program does not control: which
  connection attempts succeed, which remote actions the server accepts, which
  inserts the database accepts, and how the HTTP client consumes a download.
-/

namespace ShCloud

/-! ## Data model -/

/-- Contents of a file, as a sequence of byte values. -/
abbrev Bytes := List Nat

/-- Row of the `users` table, restricted to the columns the handlers read. -/
structure User where
  id : Nat
  role : String
deriving DecidableEq, Repr

/-- Row of the `folders` table (`src/models/Folder.js`). -/
structure Folder where
  id : Nat
  user_id : Nat
  folder_name : String
  folder_path : String
  ftp_path : String
deriving DecidableEq, Repr

/-- Row of the `files` table (`src/models/File.js`). -/
structure File where
  id : Nat
  user_id : Nat
  folder_id : Option Nat
  filename : String
  original_name : String
  file_path : String
  file_size : Nat
  file_type : String
  ftp_path : String
deriving DecidableEq, Repr

/-- The staged upload that the multipart middleware hands over as `req.file`. -/
structure StagedFile where
  filename : String
  originalname : String
  path : String
  size : Nat
  mimetype : String
deriving DecidableEq, Repr

/-- External calls, in the order the program makes them. -/
inductive Event where
  | connect (conn : Nat) (ok : Bool)
  | clientEnd (conn : Nat)
  | put (conn : Nat) (localPath remotePath : String) (ok : Bool)
  | list (conn : Nat) (remotePath : String) (ok : Bool)
  | mkdir (conn : Nat) (remotePath : String) (ok : Bool)
  | delete (conn : Nat) (remotePath : String) (ok : Bool)
  | get (conn : Nat) (remotePath : String) (ok : Bool)
  | fileCreate (ftp_path : String) (ok : Bool)
  | fileDestroy (id : Nat)
  | folderCreate (ftp_path : String) (ok : Bool)
  | unlink (path : String)
deriving DecidableEq, Repr

/-- How the local read stream of a download and the HTTP client behave once the
response is being piped.  `fs.createReadStream` hands the file over in chunks
of 64 KiB and emits `end` once the whole file has gone into the response.
Either the stream reaches its end; or it raises an error after `sent` bytes
went out; or the client closes the response when `chunks` chunks have been
handed over (`0`: before the first chunk was read).  A close unpipes the read
stream: when the whole file had been handed over by then, the stream still
emits `end`; otherwise it emits neither `end` nor `error`. -/
inductive StreamOutcome where
  | ended
  | error (sent : Nat)
  | aborted (chunks : Nat)
deriving DecidableEq, Repr

/-- Behaviour of the collaborators, indexed by the counter that identifies the
call: the connection number for FTP, the id to be assigned for inserts.
`transactionOk` tells whether the database transaction of a user deletion goes
through; `encodeURIComponent` stands for the JavaScript built-in; `tempLost`
tells whether another party removes the temporary file of a download from the
local disk between the end of the fetch and the existence check. -/
structure Env where
  connectOk : Nat → Bool
  remoteOk : Nat → Bool
  writeOk : Nat → Bool
  fileInsertOk : Nat → Bool
  folderInsertOk : Nat → Bool
  stream : StreamOutcome
  transactionOk : Bool
  encodeURIComponent : String → String
  tempLost : Bool

/-- The environment in which nothing fails and the client reads to the end. -/
def Env.healthy : Env where
  connectOk := fun _ => true
  remoteOk := fun _ => true
  writeOk := fun _ => true
  fileInsertOk := fun _ => true
  folderInsertOk := fun _ => true
  stream := StreamOutcome.ended
  transactionOk := true
  encodeURIComponent := fun s => s
  tempLost := false

/-- Metadata store, remote store, local disk, FTP connections and call log. -/
structure World where
  users : List User
  folders : List Folder
  files : List File
  nextFolderId : Nat
  nextFileId : Nat
  remoteDirs : List String
  remoteObjs : List (String × Bytes)
  localFs : List (String × Bytes)
  openConns : List Nat
  nextConn : Nat
  now : Nat
  log : List Event
deriving Repr

/-- A fresh deployment: no records, empty remote store and local disk. -/
def World.empty : World where
  users := []
  folders := []
  files := []
  nextFolderId := 1
  nextFileId := 1
  remoteDirs := []
  remoteObjs := []
  localFs := []
  openConns := []
  nextConn := 0
  now := 0
  log := []

/-- The calls logged between world `w` and a later world `w2`. -/
def newEvents (w w2 : World) : List Event := w2.log.drop w.log.length

def World.emit (w : World) (e : Event) : World := { w with log := w.log ++ [e] }

/-! ## Local disk (`fs`) -/

def existsSync (w : World) (p : String) : Bool := (w.localFs.lookup p).isSome

def readLocal (w : World) (p : String) : Option Bytes := w.localFs.lookup p

def writeLocal (p : String) (b : Bytes) (w : World) : World :=
  { w with localFs := (p, b) :: w.localFs.filter (fun e => e.1 ≠ p) }

/-- Model of `fs.unlink` / a successful `fs.unlinkSync`: the entry is removed. -/
def unlink (p : String) (w : World) : World :=
  ({ w with localFs := w.localFs.filter (fun e => e.1 ≠ p) }).emit (Event.unlink p)

/-- Model of `fs.unlinkSync`, which throws when the path does not exist. -/
def unlinkSync (p : String) (w : World) : Option World :=
  if existsSync w p then some (unlink p w) else none

/-! ## Remote store primitives (the `ftp` client library)

The wire client is a third-party dependency of the repository.  Its primitives
are modelled after the capability set the program relies on (`put`, `get`,
`list`, recursive `mkdir`, `delete`, each calling back with or without an
error).  A primitive fails when the environment rejects the action on that
connection, or when `get`/`delete` name an object that is not there. -/

/-- Split a path at every `/`. -/
def segments : List Char → List Char → List (List Char)
  | [], cur => [cur.reverse]
  | c :: cs, cur => if c = '/' then cur.reverse :: segments cs [] else segments cs (c :: cur)

def ancestorsAux : String → List (List Char) → List String
  | _, [] => []
  | acc, seg :: rest =>
    if seg = [] then ancestorsAux acc rest
    else (acc ++ "/" ++ String.mk seg) :: ancestorsAux (acc ++ "/" ++ String.mk seg) rest

/-- The directory path and all of its ancestor segments, outermost first:
`"/users/7/inv"` gives `["/users", "/users/7", "/users/7/inv"]`. -/
def ancestors (p : String) : List String := ancestorsAux "" (segments p.data [])

def addDir (dirs : List String) (d : String) : List String :=
  if d ∈ dirs then dirs else dirs ++ [d]

/-- The bytes of a text in UTF-8. -/
def textBytes (s : String) : Bytes :=
  s.data.flatMap (fun c =>
    let n := c.toNat
    if n < 128 then [n]
    else if n < 2048 then [192 + n / 64, 128 + n % 64]
    else if n < 65536 then [224 + n / 4096, 128 + n / 64 % 64, 128 + n % 64]
    else [240 + n / 262144, 128 + n / 4096 % 64, 128 + n / 64 % 64, 128 + n % 64])

/-- What `put(input, ...)` of the client sends for a string `input`: the
contents of the local file of that name, or, when there is no such file, the
text of `input` itself. -/
def putData (w : World) (localPath : String) : Bytes :=
  match readLocal w localPath with
  | some b => b
  | none => textBytes localPath

def clientPut (env : Env) (c : Nat) (localPath remotePath : String) (w : World) :
    Bool × World :=
  if env.remoteOk c then
    (true, ({ w with remoteObjs :=
        (remotePath, putData w localPath) ::
          w.remoteObjs.filter (fun e => e.1 ≠ remotePath) }).emit
      (Event.put c localPath remotePath true))
  else (false, w.emit (Event.put c localPath remotePath false))

def clientList (env : Env) (c : Nat) (remotePath : String) (w : World) :
    Option (List String) × World :=
  if env.remoteOk c then
    (some ((w.remoteObjs.map (fun e => e.1)).filter
        (fun p => remotePath.data.isPrefixOf p.data)),
      w.emit (Event.list c remotePath true))
  else (none, w.emit (Event.list c remotePath false))

/-- Modelled from the spec: the recursive `mkdir` of the `ftp` client library,
which is a dependency and not among the sources.  The spec asks of it that it
creates the full path, intermediate segments included, and tolerates "already
exists" as success: absent segments are added to the set of directories,
present ones are left alone. -/
def clientMkdir (env : Env) (c : Nat) (remotePath : String) (w : World) : Bool × World :=
  if env.remoteOk c then
    (true, ({ w with remoteDirs := (ancestors remotePath).foldl addDir w.remoteDirs }).emit
      (Event.mkdir c remotePath true))
  else (false, w.emit (Event.mkdir c remotePath false))

def clientDelete (env : Env) (c : Nat) (remotePath : String) (w : World) : Bool × World :=
  if env.remoteOk c && (w.remoteObjs.lookup remotePath).isSome then
    (true, ({ w with remoteObjs := w.remoteObjs.filter (fun e => e.1 ≠ remotePath) }).emit
      (Event.delete c remotePath true))
  else (false, w.emit (Event.delete c remotePath false))

def clientGet (env : Env) (c : Nat) (remotePath : String) (w : World) :
    Option Bytes × World :=
  match w.remoteObjs.lookup remotePath with
  | some b =>
    if env.remoteOk c then (some b, w.emit (Event.get c remotePath true))
    else (none, w.emit (Event.get c remotePath false))
  | none => (none, w.emit (Event.get c remotePath false))

/-- Model of `client.end()`: the connection is closed. -/
def clientEnd (c : Nat) (w : World) : World :=
  ({ w with openConns := w.openConns.filter (fun d => d ≠ c) }).emit (Event.clientEnd c)

/-! ## `FTPManager` (`src/config/ftp.js`) -/

/-- Why a promise of `FTPManager` was rejected. -/
inductive FtpError where
  | connection
  | remote (path : String)
  | localWrite (path : String)
deriving DecidableEq, Repr

/-- `FTPManager.connect`: resolves with a fresh client on `ready`, rejects on
`error`. -/
def connect (env : Env) (w : World) : Option Nat × World :=
  let c := w.nextConn
  if env.connectOk c then
    (some c, ({ w with nextConn := c + 1, openConns := c :: w.openConns }).emit
      (Event.connect c true))
  else (none, ({ w with nextConn := c + 1 }).emit (Event.connect c false))

/-- `FTPManager.uploadFile(localPath, remotePath)`. -/
def uploadFile (env : Env) (localPath remotePath : String) (w : World) :
    Except FtpError String × World :=
  match connect env w with
  | (none, w1) => (Except.error FtpError.connection, w1)
  | (some c, w1) =>
    match clientPut env c localPath remotePath w1 with
    | (ok, w2) =>
      let w3 := clientEnd c w2
      if ok then (Except.ok remotePath, w3) else (Except.error (FtpError.remote remotePath), w3)

/-- `FTPManager.listFiles(remotePath)`. -/
def listFiles (env : Env) (remotePath : String) (w : World) :
    Except FtpError (List String) × World :=
  match connect env w with
  | (none, w1) => (Except.error FtpError.connection, w1)
  | (some c, w1) =>
    match clientList env c remotePath w1 with
    | (r, w2) =>
      let w3 := clientEnd c w2
      match r with
      | some l => (Except.ok l, w3)
      | none => (Except.error (FtpError.remote remotePath), w3)

/-- `FTPManager.createDirectory(remotePath)`. -/
def createDirectory (env : Env) (remotePath : String) (w : World) :
    Except FtpError String × World :=
  match connect env w with
  | (none, w1) => (Except.error FtpError.connection, w1)
  | (some c, w1) =>
    match clientMkdir env c remotePath w1 with
    | (ok, w2) =>
      let w3 := clientEnd c w2
      if ok then (Except.ok remotePath, w3) else (Except.error (FtpError.remote remotePath), w3)

/-- `FTPManager.deleteFile(remotePath)`. -/
def deleteFile (env : Env) (remotePath : String) (w : World) :
    Except FtpError Bool × World :=
  match connect env w with
  | (none, w1) => (Except.error FtpError.connection, w1)
  | (some c, w1) =>
    match clientDelete env c remotePath w1 with
    | (ok, w2) =>
      let w3 := clientEnd c w2
      if ok then (Except.ok true, w3) else (Except.error (FtpError.remote remotePath), w3)

/-- `FTPManager.downloadFile(remotePath, localPath)`: on a rejected `get` the
connection is ended and nothing is written; otherwise the stream is piped into
a write stream on `localPath`, whose `close` resolves and whose `error` unlinks
the partial file and rejects. -/
def downloadFile (env : Env) (remotePath localPath : String) (w : World) :
    Except FtpError String × World :=
  match connect env w with
  | (none, w1) => (Except.error FtpError.connection, w1)
  | (some c, w1) =>
    match clientGet env c remotePath w1 with
    | (none, w2) => (Except.error (FtpError.remote remotePath), clientEnd c w2)
    | (some b, w2) =>
      if env.writeOk c then
        (Except.ok localPath, clientEnd c (writeLocal localPath b w2))
      else
        (Except.error (FtpError.localWrite localPath),
          unlink localPath (clientEnd c (writeLocal localPath [] w2)))

/-- `FTPManager.getFileStream(remotePath)`: on success the promise resolves
with the stream together with the client, which is left for the caller to
close. -/
def getFileStream (env : Env) (remotePath : String) (w : World) :
    Except FtpError (Bytes × Nat) × World :=
  match connect env w with
  | (none, w1) => (Except.error FtpError.connection, w1)
  | (some c, w1) =>
    match clientGet env c remotePath w1 with
    | (none, w2) => (Except.error (FtpError.remote remotePath), clientEnd c w2)
    | (some b, w2) => (Except.ok (b, c), w2)

/-! ## Metadata store (Sequelize models) -/

/-- `Folder.findOne({ where: { id, user_id } })`. -/
def findOneFolder (w : World) (id userId : Nat) : Option Folder :=
  w.folders.find? (fun f => f.id = id ∧ f.user_id = userId)

/-- `File.findByPk(id)`. -/
def findFileByPk (w : World) (id : Nat) : Option File :=
  w.files.find? (fun f => f.id = id)

/-- `User.findByPk(id)`. -/
def findUserByPk (w : World) (id : Nat) : Option User :=
  w.users.find? (fun u => u.id = id)

/-- `File.create(fields)`: the row gets the next auto-increment id, or the
insert is rejected and nothing is stored.  The `id` of `fields` is ignored. -/
def createFile (env : Env) (fields : File) (w : World) : Option File × World :=
  if env.fileInsertOk w.nextFileId then
    let r := { fields with id := w.nextFileId }
    (some r, ({ w with files := w.files ++ [r], nextFileId := w.nextFileId + 1 }).emit
      (Event.fileCreate r.ftp_path true))
  else (none, w.emit (Event.fileCreate fields.ftp_path false))

/-- `Folder.create(fields)`, as `createFile`. -/
def createFolder (env : Env) (fields : Folder) (w : World) : Option Folder × World :=
  if env.folderInsertOk w.nextFolderId then
    let r := { fields with id := w.nextFolderId }
    (some r, ({ w with folders := w.folders ++ [r], nextFolderId := w.nextFolderId + 1 }).emit
      (Event.folderCreate r.ftp_path true))
  else (none, w.emit (Event.folderCreate fields.ftp_path false))

/-- `file.destroy()` on one row. -/
def destroyFile (id : Nat) (w : World) : World :=
  ({ w with files := w.files.filter (fun f => f.id ≠ id) }).emit (Event.fileDestroy id)

/-! ## HTTP responses -/

/-- What a handler has put on the response: a JSON document (its `message`
and the further fields, rendered as text) or the bytes piped so far. -/
inductive Payload where
  | json (message : String) (fields : List (String × String))
  | stream (sent : Bytes)
  | pending
deriving DecidableEq, Repr

structure Response where
  status : Nat
  headers : List (String × String)
  payload : Payload
deriving DecidableEq, Repr

/-- `res.status(code).json({ message })`. -/
def jsonMessage (code : Nat) (message : String) : Response :=
  { status := code, headers := [], payload := Payload.json message [] }

/-! ## Upload (`POST /upload`, `src/routes/files.js`) -/

structure UploadRequest where
  user : User
  file : Option StagedFile
  /-- The `folderId` body field; `none` when absent or empty (falsy). -/
  folderId : Option Nat

/-- The remote path the upload handler computes for a staged file. -/
def ftpFilePath (userId : Nat) (folderFtpPath filename : String) : String :=
  if folderFtpPath ≠ "" then folderFtpPath ++ "/" ++ filename
  else "/users/" ++ toString userId ++ "/" ++ filename

/-- Lines 22-39 of the upload handler: `folderFtpPath` stays `''` without a
`folderId`; with one, it is the `ftp_path` of the folder found for this user,
and `none` stands for the early 404 return. -/
def folderLookup (w : World) (folderId : Option Nat) (userId : Nat) : Option String :=
  match folderId with
  | none => some ""
  | some id => (findOneFolder w id userId).map (fun r => r.ftp_path)

/-- The handler of `POST /upload`. -/
def uploadHandler (env : Env) (req : UploadRequest) (w : World) : Response × World :=
  match req.file with
  | none => (jsonMessage 400 "No file uploaded", w)
  | some file =>
    let userId := req.user.id
    match folderLookup w req.folderId userId with
    | none => (jsonMessage 404 "Folder not found or does not belong to you", w)
    | some folderFtpPath =>
      let userFtpPath := "/users/" ++ toString userId
      match createDirectory env userFtpPath w with
      | (Except.error _, w1) => (jsonMessage 500 "Server error", w1)
      | (Except.ok _, w1) =>
        let dest := ftpFilePath userId folderFtpPath file.filename
        match (if folderFtpPath ≠ "" then createDirectory env folderFtpPath w1
               else (Except.ok folderFtpPath, w1)) with
        | (Except.error _, w2) => (jsonMessage 500 "Server error", w2)
        | (Except.ok _, w2) =>
          match uploadFile env file.path dest w2 with
          | (Except.error _, w3) => (jsonMessage 500 "Server error", w3)
          | (Except.ok _, w3) =>
            match createFile env
                { id := 0, user_id := userId, folder_id := req.folderId,
                  filename := file.filename, original_name := file.originalname,
                  file_path := file.path, file_size := file.size,
                  file_type := file.mimetype, ftp_path := dest } w3 with
            | (none, w4) => (jsonMessage 500 "Server error", w4)
            | (some fileRecord, w4) =>
              match unlinkSync file.path w4 with
              | none => (jsonMessage 500 "Server error", w4)
              | some w5 =>
                ({ status := 201, headers := [],
                   payload := Payload.json "File uploaded successfully"
                     [("id", toString fileRecord.id), ("filename", file.filename),
                      ("originalName", file.originalname), ("size", toString file.size),
                      ("type", file.mimetype), ("ftpPath", dest)] }, w5)

/-! ## Create folder (`POST /create-folder`) -/

structure CreateFolderRequest where
  user : User
  /-- The `folderName` body field; `""` when absent (falsy). -/
  folderName : String

/-- The handler of `POST /create-folder`. -/
def createFolderHandler (env : Env) (req : CreateFolderRequest) (w : World) :
    Response × World :=
  let userId := req.user.id
  if req.folderName = "" then (jsonMessage 400 "Folder name required", w)
  else
    let userFtpPath := "/users/" ++ toString userId
    match createDirectory env userFtpPath w with
    | (Except.error _, w1) => (jsonMessage 500 "Server error", w1)
    | (Except.ok _, w1) =>
      let folderFtpPath := userFtpPath ++ "/" ++ req.folderName
      match createDirectory env folderFtpPath w1 with
      | (Except.error _, w2) => (jsonMessage 500 "Server error", w2)
      | (Except.ok _, w2) =>
        match createFolder env
            { id := 0, user_id := userId, folder_name := req.folderName,
              folder_path := "./uploads/" ++ toString userId ++ "/" ++ req.folderName,
              ftp_path := folderFtpPath } w2 with
        | (none, w3) => (jsonMessage 500 "Server error", w3)
        | (some folder, w3) =>
          ({ status := 201, headers := [],
             payload := Payload.json "Folder created successfully"
               [("id", toString folder.id), ("name", req.folderName),
                ("ftpPath", folderFtpPath)] }, w3)

/-! ## Download (`GET /download/:fileId`) -/

/-- A request `GET /download/:fileId`.  `param` is the text of
`req.params.fileId`, which goes into the temporary path as it is; `fileId` is
the primary key the database takes that text for when `findByPk` compares it
with the `id` column (`1` for `1` and for `01`). -/
structure DownloadRequest where
  user : User
  fileId : Nat
  param : String

/-- One step of the normalisation of a path, on the segments kept so far (the
last one first): empty segments and `.` are dropped, `..` removes the segment
before it, and is kept when there is none to remove and the path is relative. -/
def pushSegment (allowAboveRoot : Bool) (stack : List (List Char)) (seg : List Char) :
    List (List Char) :=
  if seg = [] ∨ seg = ['.'] then stack
  else if seg = ['.', '.'] then
    match stack with
    | [] => if allowAboveRoot then [seg] else []
    | top :: rest => if top = ['.', '.'] then seg :: stack else rest
  else seg :: stack

/-- The segments of a path, with `/` between them. -/
def joinSegments : List (List Char) → List Char
  | [] => []
  | [s] => s
  | s :: rest => s ++ '/' :: joinSegments rest

/-- Model of `path.normalize` (POSIX) of Node.js on a non-empty path. -/
def normalize (p : String) : String :=
  let isAbsolute : Bool := p.data.head? = some '/'
  let trailingSeparator : Bool := p.data.getLast? = some '/'
  let body := joinSegments ((segments p.data []).foldl (pushSegment !isAbsolute) []).reverse
  if body = [] then
    (if isAbsolute then "/" else if trailingSeparator then "./" else ".")
  else
    String.mk ((if isAbsolute then ['/'] else []) ++ body ++
      (if trailingSeparator then ['/'] else []))

/-- Model of `path.join(a, b)` for non-empty `a` and `b`: the arguments are
joined with `/` and the result is normalised. -/
def pathJoin (a b : String) : String := normalize (a ++ "/" ++ b)

/-- The temporary path of a download,
`path.join(__dirname, '../../temp', name)` with `name` the template
`download_${fileId}_${Date.now()}_${file.filename}`, written relative to the
application root (two levels above `__dirname`).  `param` is the text of the
`fileId` parameter of the request. -/
def tempPath (param : String) (now : Nat) (filename : String) : String :=
  pathJoin "temp" ("download_" ++ param ++ "_" ++ toString now ++ "_" ++ filename)

/-- The chunk size of `fs.createReadStream` (its default `highWaterMark`). -/
def readChunkSize : Nat := 65536

/-- Whether the read stream has handed a file of `size` bytes over completely
when `chunks` chunks have gone into the response. -/
def streamDrained (size chunks : Nat) : Bool :=
  decide (chunks ≠ 0) && decide (size ≤ chunks * readChunkSize)

/-- The three headers the download handler sets before piping. -/
def downloadHeaders (env : Env) (file : File) (size : Nat) : List (String × String) :=
  [("Content-Type", if file.file_type ≠ "" then file.file_type else "application/octet-stream"),
   ("Content-Disposition",
     "attachment; filename=\"" ++ env.encodeURIComponent file.original_name ++ "\""),
   ("Content-Length", toString size)]

/-- The cleanup of the `catch` block and of the stream `error` listener:
`if (tempFilePath && fs.existsSync(tempFilePath)) fs.unlink(tempFilePath, ...)`. -/
def cleanupTemp (tempFilePath : String) (w : World) : World :=
  if existsSync w tempFilePath then unlink tempFilePath w else w

/-- What happens to the local disk between the end of the fetch and the
existence check of the download handler: nothing, or the temporary file is
removed by another party. -/
def interfere (env : Env) (tempFilePath : String) (w : World) : World :=
  if env.tempLost then { w with localFs := w.localFs.filter (fun e => e.1 ≠ tempFilePath) }
  else w

/-- The handler of `GET /download/:fileId`.  `headers` of the response are the
ones the handler sets itself; the payload is what has gone out when the
exchange is over.  `readLocal` stands for `existsSync`, `statSync` and
`createReadStream` on the temporary file.  The read stream either ends (its `end` listener unlinks the
temporary file), raises an error (its `error` listener cleans up, and answers
500 unless bytes have gone out already), or is unpiped because the client
closed the response: then the `end` listener still runs when the whole file
had been handed over, and no listener of the handler runs otherwise. -/
def downloadHandler (env : Env) (req : DownloadRequest) (w : World) : Response × World :=
  let isAdmin : Bool := req.user.role = "admin"
  match findFileByPk w req.fileId with
  | none => (jsonMessage 404 "File not found", w)
  | some file =>
    if !isAdmin && file.user_id ≠ req.user.id then
      (jsonMessage 403 "You do not have permission to download this file", w)
    else
      let tempFilePath := tempPath req.param w.now file.filename
      match downloadFile env file.ftp_path tempFilePath w with
      | (Except.error _, w1) =>
        (jsonMessage 500 "Failed to download file", cleanupTemp tempFilePath w1)
      | (Except.ok _, w0) =>
        let w1 := interfere env tempFilePath w0
        match readLocal w1 tempFilePath with
        | none => (jsonMessage 500 "Failed to download file from storage", w1)
        | some content =>
          let headers := downloadHeaders env file content.length
          match env.stream with
          | StreamOutcome.ended =>
            ({ status := 200, headers := headers, payload := Payload.stream content },
              unlink tempFilePath w1)
          | StreamOutcome.error sent =>
            if sent = 0 then
              ({ status := 500, headers := headers,
                 payload := Payload.json "Error streaming file" [] },
                cleanupTemp tempFilePath w1)
            else
              ({ status := 200, headers := headers,
                 payload := Payload.stream (content.take sent) },
                cleanupTemp tempFilePath w1)
          | StreamOutcome.aborted chunks =>
            if streamDrained content.length chunks then
              ({ status := 200, headers := headers, payload := Payload.stream content },
                unlink tempFilePath w1)
            else
              ({ status := 200, headers := headers,
                 payload := Payload.stream (content.take (chunks * readChunkSize)) }, w1)

/-! ## Delete file (`DELETE /delete/:fileId`) -/

/-- The handler of `DELETE /delete/:fileId`, as reached behind the admin
middleware. -/
def deleteFileHandler (env : Env) (fileId : Nat) (w : World) : Response × World :=
  match findFileByPk w fileId with
  | none => (jsonMessage 404 "File not found", w)
  | some file =>
    match deleteFile env file.ftp_path w with
    | (Except.error _, w1) => (jsonMessage 500 "Server error", w1)
    | (Except.ok _, w1) => (jsonMessage 200 "File deleted successfully", destroyFile file.id w1)

/-! ## Delete user (`DELETE /users/:userId`, `src/routes/auth.js`) -/

structure DeleteUserRequest where
  user : User
  /-- The value of `parseInt(req.params.userId)`; `none` for `NaN`. -/
  userId : Option Nat

/-- `User.count({ where: { role: 'admin' } })`. -/
def adminCount (w : World) : Nat := (w.users.filter (fun u => u.role = "admin")).length

/-- The three deletes of the transaction, committed: the files and the folders
of the user, then the user. -/
def cascadeDelete (userId : Nat) (w : World) : World :=
  { w with files := w.files.filter (fun f => f.user_id ≠ userId),
           folders := w.folders.filter (fun f => f.user_id ≠ userId),
           users := w.users.filter (fun u => u.id ≠ userId),
           log := w.log ++
             ((w.files.filter (fun f => f.user_id = userId)).map (fun f => Event.fileDestroy f.id)) }

/-- The handler of `DELETE /users/:userId`.  A transaction that fails is rolled
back and leaves the tables as they were; the 500 answer then carries the
message of the error, for which `'Server error'` (the fallback) stands. -/
def deleteUserHandler (env : Env) (req : DeleteUserRequest) (w : World) : Response × World :=
  if req.user.role ≠ "admin" then (jsonMessage 403 "Admin access required", w)
  else
    match req.userId with
    | none => (jsonMessage 400 "Invalid user ID", w)
    | some userId =>
      if userId = req.user.id then (jsonMessage 400 "You cannot delete your own account", w)
      else
        match findUserByPk w userId with
        | none => (jsonMessage 404 "User not found", w)
        | some userToDelete =>
          if userToDelete.role = "admin" ∧ adminCount w = 1 then
            (jsonMessage 400 "Cannot delete the last admin user", w)
          else if env.transactionOk then
            ({ status := 200, headers := [],
               payload := Payload.json "User deleted successfully"
                 [("deletedFiles",
                    toString (w.files.filter (fun f => f.user_id = userId)).length),
                  ("deletedFolders",
                    toString (w.folders.filter (fun f => f.user_id = userId)).length)] },
              cascadeDelete userId w)
          else (jsonMessage 500 "Server error", w)

/-! ## Runs of the service -/

inductive Request where
  | upload (r : UploadRequest)
  | createFolder (r : CreateFolderRequest)
  | download (r : DownloadRequest)
  | deleteFile (fileId : Nat)
  | deleteUser (r : DeleteUserRequest)

def handle (env : Env) : Request → World → Response × World
  | Request.upload r, w => uploadHandler env r w
  | Request.createFolder r, w => createFolderHandler env r w
  | Request.download r, w => downloadHandler env r w
  | Request.deleteFile fileId, w => deleteFileHandler env fileId w
  | Request.deleteUser r, w => deleteUserHandler env r w

/-- The worlds the service can be in: it starts with no folder and no file
record; requests are handled one after the other, in any environment; between
requests the upload middleware may stage a file on the local disk and the
clock may advance. -/
inductive Reachable : World → Prop where
  | init (w : World) (hfolders : w.folders = []) (hfiles : w.files = []) : Reachable w
  | request (env : Env) (req : Request) (w : World) :
      Reachable w → Reachable (handle env req w).2
  | stage (p : String) (b : Bytes) (w : World) : Reachable w → Reachable (writeLocal p b w)
  | tick (t : Nat) (w : World) : Reachable w → Reachable { w with now := w.now + t }

/-- The string `s` begins with the string `p`. -/
def beginsWith (s p : String) : Prop := p.data <+: s.data

instance (s p : String) : Decidable (beginsWith s p) := by
  unfold beginsWith; infer_instance

/-- The namespace segment of a user: `/users/{userId}/`. -/
def userNamespace (userId : Nat) : String := "/users/" ++ toString userId ++ "/"

/-! ## Outcomes of the `FTPManager` operations -/

/-- The world after a connection attempt that was refused. -/
def connectFailed (w : World) : World :=
  { w with nextConn := w.nextConn + 1, log := w.log ++ [Event.connect w.nextConn false] }

/-- The world after an operation that connected, issued one action (logged as
`e`) and ended its connection, leaving the stores as they were. -/
def ftpDone (e : Event) (w : World) : World :=
  { w with nextConn := w.nextConn + 1,
           openConns := w.openConns.filter (fun d => d ≠ w.nextConn),
           log := w.log ++ [Event.connect w.nextConn true, e, Event.clientEnd w.nextConn] }

def mkdirDone (p : String) (w : World) : World :=
  { ftpDone (Event.mkdir w.nextConn p true) w with
    remoteDirs := (ancestors p).foldl addDir w.remoteDirs }

def putDone (l p : String) (b : Bytes) (w : World) : World :=
  { ftpDone (Event.put w.nextConn l p true) w with
    remoteObjs := (p, b) :: w.remoteObjs.filter (fun e => e.1 ≠ p) }

def deleteDone (p : String) (w : World) : World :=
  { ftpDone (Event.delete w.nextConn p true) w with
    remoteObjs := w.remoteObjs.filter (fun e => e.1 ≠ p) }

/-- Calls that neither store a remote object nor touch the metadata or the
local disk: connection handling, directory provisioning, rejected actions. -/
def Event.isQuiet : Event → Bool
  | Event.connect _ _ => true
  | Event.clientEnd _ => true
  | Event.mkdir _ _ _ => true
  | Event.put _ _ _ false => true
  | Event.get _ _ false => true
  | Event.delete _ _ false => true
  | Event.list _ _ _ => true
  | _ => false

/-- The record the upload handler hands to `File.create` and gets back. -/
def uploadRecord (id : Nat) (req : UploadRequest) (file : StagedFile) (dest : String) : File :=
  { id := id, user_id := req.user.id, folder_id := req.folderId,
    filename := file.filename, original_name := file.originalname,
    file_path := file.path, file_size := file.size,
    file_type := file.mimetype, ftp_path := dest }

/-- The calls of a successful provisioning phase of an upload that starts with
connection number `c`. -/
def provisionEvents (c userId : Nat) (fp : String) : List Event :=
  [Event.connect c true, Event.mkdir c ("/users/" ++ toString userId) true, Event.clientEnd c] ++
    (if fp ≠ "" then [Event.connect (c + 1) true, Event.mkdir (c + 1) fp true,
      Event.clientEnd (c + 1)] else [])

/-- The connection number on which the transfer of that upload runs. -/
def transferConn (c : Nat) (fp : String) : Nat := if fp ≠ "" then c + 2 else c + 1

/-- A remote step that was refused: a connection attempt, a `mkdir` or a `put`. -/
def Event.isRemoteFailure : Event → Bool
  | Event.connect _ false => true
  | Event.mkdir _ _ false => true
  | Event.put _ _ _ false => true
  | _ => false

/-! ## Sample inputs -/

/-- The staged upload of the spec's scenario: `report.pdf`, 1,024 bytes. -/
def reportPdf : StagedFile :=
  { filename := "report.pdf", originalname := "report.pdf", path := "uploads/report.pdf",
    size := 1024, mimetype := "application/pdf" }

/-- User 7, an ordinary account. -/
def user7 : User := { id := 7, role := "user" }

/-- An administrator. -/
def admin1 : User := { id := 1, role := "admin" }

/-- The 1,024 bytes of `report.pdf`. -/
def pdfBytes : Bytes := List.replicate 1024 37

/-- A fresh deployment with both accounts and `report.pdf` staged on disk. -/
def stagedWorld : World :=
  { World.empty with users := [admin1, user7], localFs := [("uploads/report.pdf", pdfBytes)] }

/-- User 7 uploads `report.pdf` into the root of the namespace. -/
def reportUpload : UploadRequest := { user := user7, file := some reportPdf, folderId := none }

/-- User 7 uploads `report.pdf` naming folder 3, which does not exist. -/
def strayUpload : UploadRequest := { user := user7, file := some reportPdf, folderId := some 3 }

/-- The server refuses the action on connection 1 (the `put` of an upload into
the root of a namespace). -/
def putRefused : Env := { Env.healthy with remoteOk := fun c => c != 1 }

/-- The database refuses every insert into `files`. -/
def insertRefused : Env := { Env.healthy with fileInsertOk := fun _ => false }

/-- Folder 3, owned by user 1. -/
def folder3 : Folder :=
  { id := 3, user_id := 1, folder_name := "inv", folder_path := "./uploads/1/inv",
    ftp_path := "/users/1/inv" }

/-- The staged world in which folder 3 of user 1 exists. -/
def foreignFolderWorld : World := { stagedWorld with folders := [folder3], nextFolderId := 4 }

/-- Every folder and file record lies in the namespace of its owner, and the
auto-increment counters are ahead of every id in use. -/
structure WellFormed (w : World) : Prop where
  folderPaths : ∀ f ∈ w.folders, beginsWith f.ftp_path (userNamespace f.user_id)
  filePaths : ∀ r ∈ w.files, beginsWith r.ftp_path (userNamespace r.user_id)
  fileIds : ∀ r ∈ w.files, r.id < w.nextFileId
  folderIds : ∀ f ∈ w.folders, f.id < w.nextFolderId

/-- The world after `downloadFile` resolved: the bytes are in the local file. -/
def fetchDone (rp lp : String) (b : Bytes) (w : World) : World :=
  { ftpDone (Event.get w.nextConn rp true) w with
    localFs := (lp, b) :: w.localFs.filter (fun e => e.1 ≠ lp) }

/-- The world after `downloadFile` was rejected by an error of the local write
stream: the connection is ended and the partial file unlinked. -/
def fetchWriteFailed (rp lp : String) (w : World) : World :=
  { w with nextConn := w.nextConn + 1,
           openConns := w.openConns.filter (fun d => d ≠ w.nextConn),
           localFs := w.localFs.filter (fun e => e.1 ≠ lp),
           log := w.log ++ [Event.connect w.nextConn true, Event.get w.nextConn rp true,
             Event.clientEnd w.nextConn, Event.unlink lp] }

/-- User 7 creates the folder `invoices`. -/
def invoicesFolder : CreateFolderRequest := { user := user7, folderName := "invoices" }

/-- User 7 uploads `report.pdf` into folder 1. -/
def folderUpload : UploadRequest := { user := user7, file := some reportPdf, folderId := some 1 }

/-- The staged world after user 7 created `invoices` and uploaded `report.pdf`
into it, all in the healthy environment. -/
def invoicesWorld : World :=
  (handle Env.healthy (Request.upload folderUpload)
    (handle Env.healthy (Request.createFolder invoicesFolder) stagedWorld).2).2

/-- The staged world after user 7 uploaded `report.pdf` into the root of the
namespace: file record 1 at `/users/7/report.pdf`. -/
def uploadedWorld : World := (uploadHandler Env.healthy reportUpload stagedWorld).2

/-- User 7 downloads file 1. -/
def reportDownload : DownloadRequest := { user := user7, fileId := 1, param := "1" }

/-- The client closes the response before the read stream has handed over its
first chunk. -/
def clientAborts : Env := { Env.healthy with stream := StreamOutcome.aborted 0 }

/-- The client closes the response mid-body, after the read stream has handed
over its first chunk. -/
def clientAbortsLate : Env := { Env.healthy with stream := StreamOutcome.aborted 1 }

/-- The local read stream fails after 512 bytes. -/
def streamBreaks : Env := { Env.healthy with stream := StreamOutcome.error 512 }

/-- The server refuses every action. -/
def serverRefuses : Env := { Env.healthy with remoteOk := fun _ => false }

/-- As `uploadedWorld`, but the remote object has lost its contents: the remote
store holds zero bytes at `/users/7/report.pdf` while record 1 still says
`file_size = 1024`. -/
def truncatedWorld : World :=
  { uploadedWorld with remoteObjs := [("/users/7/report.pdf", [])] }

/-- The administrator deletes user 7. -/
def deleteUser7 : DeleteUserRequest := { user := admin1, userId := some 7 }

/-- Another party removes the temporary file right after the fetch. -/
def tempRemoved : Env := { Env.healthy with tempLost := true }

/-- As `uploadedWorld`, but the remote object of record 1 was deleted
out-of-band: the remote store holds nothing at `/users/7/report.pdf`. -/
def orphanWorld : World := { uploadedWorld with remoteObjs := [] }

/-- The administrator downloads file 1 of user 7. -/
def adminDownload : DownloadRequest := { user := admin1, fileId := 1, param := "1" }

/-- User 8, an ordinary account, asks for file 1 of user 7. -/
def strangerDownload : DownloadRequest :=
  { user := { id := 8, role := "user" }, fileId := 1, param := "1" }

/-- User 7 asks for file 99, of which there is no record. -/
def missingDownload : DownloadRequest := { user := user7, fileId := 99, param := "99" }

/-- The record the create-folder handler hands to `Folder.create` and gets
back with id `id`. -/
def folderRecord (id : Nat) (req : CreateFolderRequest) : Folder :=
  { id := id, user_id := req.user.id, folder_name := req.folderName,
    folder_path := "./uploads/" ++ toString req.user.id ++ "/" ++ req.folderName,
    ftp_path := "/users/" ++ toString req.user.id ++ "/" ++ req.folderName }

/-- The calls of the two successful `createDirectory` of a create-folder
request that starts with connection number `c`: first the user root, then the
folder. -/
def folderProvision (c : Nat) (req : CreateFolderRequest) : List Event :=
  [Event.connect c true, Event.mkdir c ("/users/" ++ toString req.user.id) true,
   Event.clientEnd c, Event.connect (c + 1) true,
   Event.mkdir (c + 1) ("/users/" ++ toString req.user.id ++ "/" ++ req.folderName) true,
   Event.clientEnd (c + 1)]

/-- The server refuses the action on connection 1 (the second
`createDirectory` of a create-folder request in a fresh deployment). -/
def secondMkdirRefused : Env := { Env.healthy with remoteOk := fun c => c != 1 }

/-- A second administrator. -/
def admin2 : User := { id := 2, role := "admin" }

/-- The staged world with a second administrator. -/
def twoAdminsWorld : World := { stagedWorld with users := [admin1, admin2, user7] }

/-- Administrator 2 asks to delete administrator 1. -/
def deleteAdmin1 : DeleteUserRequest := { user := admin2, userId := some 1 }

/-- User 7, not an administrator, asks to delete user 1. -/
def deleteByUser7 : DeleteUserRequest := { user := user7, userId := some 1 }

/-- Administrator 1 asks to delete the own account. -/
def deleteSelf : DeleteUserRequest := { user := admin1, userId := some 1 }

/-- The number a list of decimal digit characters stands for, continuing from
`acc`. -/
def digitsValue (acc : Nat) (l : List Char) : Nat :=
  l.foldl (fun a c => a * 10 + (c.toNat - 48)) acc

/-- The world left by user 7's download of record 1 whose client closed the
response before the first chunk was handed over: the clock still reads 0 and
the temporary file is on the disk. -/
def abortedDownloadWorld : World := (downloadHandler clientAborts reportDownload uploadedWorld).2

/-- `uploadedWorld` five milliseconds later. -/
def laterWorld : World := { uploadedWorld with now := uploadedWorld.now + 5 }

/-- User 7 asks for file 1 through the URL `/download/01`. -/
def paddedDownload : DownloadRequest := { user := user7, fileId := 1, param := "01" }

/-! ## Case analysis of the operations -/

theorem createDirectory_cases (env : Env) (p : String) (w : World) :
    createDirectory env p w = (Except.error FtpError.connection, connectFailed w)
    ∨ createDirectory env p w =
        (Except.error (FtpError.remote p), ftpDone (Event.mkdir w.nextConn p false) w)
    ∨ createDirectory env p w = (Except.ok p, mkdirDone p w) := by
  cases h1 : env.connectOk w.nextConn <;> cases h2 : env.remoteOk w.nextConn <;>
    simp [createDirectory, connect, clientMkdir, clientEnd, World.emit, h1, h2,
      connectFailed, ftpDone, mkdirDone]

theorem uploadFile_cases (env : Env) (l p : String) (w : World) :
    uploadFile env l p w = (Except.error FtpError.connection, connectFailed w)
    ∨ uploadFile env l p w =
        (Except.error (FtpError.remote p), ftpDone (Event.put w.nextConn l p false) w)
    ∨ uploadFile env l p w = (Except.ok p, putDone l p (putData w l) w) := by
  cases h1 : env.connectOk w.nextConn <;> cases h2 : env.remoteOk w.nextConn <;>
    simp [uploadFile, connect, clientPut, clientEnd, World.emit, putData, readLocal, h1, h2,
      connectFailed, ftpDone, putDone]

theorem deleteFile_cases (env : Env) (p : String) (w : World) :
    deleteFile env p w = (Except.error FtpError.connection, connectFailed w)
    ∨ deleteFile env p w =
        (Except.error (FtpError.remote p), ftpDone (Event.delete w.nextConn p false) w)
    ∨ deleteFile env p w = (Except.ok true, deleteDone p w) := by
  cases h1 : env.connectOk w.nextConn <;> cases h2 : env.remoteOk w.nextConn <;>
    cases h3 : w.remoteObjs.lookup p <;>
    simp [deleteFile, connect, clientDelete, clientEnd, World.emit, h1, h2, h3,
      connectFailed, ftpDone, deleteDone]

theorem newEvents_append (w w2 : World) (evs : List Event) (h : w2.log = w.log ++ evs) :
    newEvents w w2 = evs := by
  simp [newEvents, h]

/-- Every run of the upload handler is of one of six shapes: no file; folder
not found; a remote step refused; transfer done and insert refused; transfer
done, record stored and staging file removed; transfer done and record stored
while the staging file is not there (`unlinkSync` throws and the answer is
500). -/
theorem upload_cases (env : Env) (req : UploadRequest) (w : World) :
    (req.file = none ∧ uploadHandler env req w = (jsonMessage 400 "No file uploaded", w))
    ∨ (∃ file, req.file = some file ∧ folderLookup w req.folderId req.user.id = none ∧
        uploadHandler env req w =
          (jsonMessage 404 "Folder not found or does not belong to you", w))
    ∨ (∃ file fp evs, req.file = some file ∧
        folderLookup w req.folderId req.user.id = some fp ∧
        (uploadHandler env req w).1 = jsonMessage 500 "Server error" ∧
        (uploadHandler env req w).2.log = w.log ++ evs ∧
        (∀ e ∈ evs, e.isQuiet = true) ∧
        (Event.connect w.nextConn true ∈ evs ∨ Event.connect w.nextConn false ∈ evs) ∧
        (uploadHandler env req w).2.files = w.files ∧
        (uploadHandler env req w).2.folders = w.folders ∧
        (uploadHandler env req w).2.users = w.users ∧
        (uploadHandler env req w).2.localFs = w.localFs ∧
        (uploadHandler env req w).2.remoteObjs = w.remoteObjs ∧
        (uploadHandler env req w).2.nextFileId = w.nextFileId ∧
        (uploadHandler env req w).2.nextFolderId = w.nextFolderId)
    ∨ (∃ file fp b, req.file = some file ∧
        folderLookup w req.folderId req.user.id = some fp ∧
        b = putData w file.path ∧
        (uploadHandler env req w).1 = jsonMessage 500 "Server error" ∧
        (uploadHandler env req w).2.log = w.log ++ (provisionEvents w.nextConn req.user.id fp ++
          [Event.connect (transferConn w.nextConn fp) true,
           Event.put (transferConn w.nextConn fp) file.path
             (ftpFilePath req.user.id fp file.filename) true,
           Event.clientEnd (transferConn w.nextConn fp),
           Event.fileCreate (ftpFilePath req.user.id fp file.filename) false]) ∧
        (uploadHandler env req w).2.files = w.files ∧
        (uploadHandler env req w).2.folders = w.folders ∧
        (uploadHandler env req w).2.users = w.users ∧
        (uploadHandler env req w).2.localFs = w.localFs ∧
        (uploadHandler env req w).2.remoteObjs =
          (ftpFilePath req.user.id fp file.filename, b) ::
            w.remoteObjs.filter (fun e => e.1 ≠ ftpFilePath req.user.id fp file.filename) ∧
        (uploadHandler env req w).2.nextFileId = w.nextFileId ∧
        (uploadHandler env req w).2.nextFolderId = w.nextFolderId)
    ∨ (∃ file fp b, req.file = some file ∧
        folderLookup w req.folderId req.user.id = some fp ∧
        w.localFs.lookup file.path = some b ∧
        (uploadHandler env req w).1 =
          { status := 201, headers := [],
            payload := Payload.json "File uploaded successfully"
              [("id", toString w.nextFileId), ("filename", file.filename),
               ("originalName", file.originalname), ("size", toString file.size),
               ("type", file.mimetype),
               ("ftpPath", ftpFilePath req.user.id fp file.filename)] } ∧
        (uploadHandler env req w).2.log = w.log ++ (provisionEvents w.nextConn req.user.id fp ++
          [Event.connect (transferConn w.nextConn fp) true,
           Event.put (transferConn w.nextConn fp) file.path
             (ftpFilePath req.user.id fp file.filename) true,
           Event.clientEnd (transferConn w.nextConn fp),
           Event.fileCreate (ftpFilePath req.user.id fp file.filename) true,
           Event.unlink file.path]) ∧
        (uploadHandler env req w).2.files = w.files ++
          [uploadRecord w.nextFileId req file (ftpFilePath req.user.id fp file.filename)] ∧
        (uploadHandler env req w).2.folders = w.folders ∧
        (uploadHandler env req w).2.users = w.users ∧
        (uploadHandler env req w).2.localFs = w.localFs.filter (fun e => e.1 ≠ file.path) ∧
        (uploadHandler env req w).2.remoteObjs =
          (ftpFilePath req.user.id fp file.filename, b) ::
            w.remoteObjs.filter (fun e => e.1 ≠ ftpFilePath req.user.id fp file.filename) ∧
        (uploadHandler env req w).2.nextFileId = w.nextFileId + 1 ∧
        (uploadHandler env req w).2.nextFolderId = w.nextFolderId)
    ∨ (∃ file fp, req.file = some file ∧
        folderLookup w req.folderId req.user.id = some fp ∧
        w.localFs.lookup file.path = none ∧
        (uploadHandler env req w).1 = jsonMessage 500 "Server error" ∧
        (uploadHandler env req w).2.log = w.log ++ (provisionEvents w.nextConn req.user.id fp ++
          [Event.connect (transferConn w.nextConn fp) true,
           Event.put (transferConn w.nextConn fp) file.path
             (ftpFilePath req.user.id fp file.filename) true,
           Event.clientEnd (transferConn w.nextConn fp),
           Event.fileCreate (ftpFilePath req.user.id fp file.filename) true]) ∧
        (uploadHandler env req w).2.files = w.files ++
          [uploadRecord w.nextFileId req file (ftpFilePath req.user.id fp file.filename)] ∧
        (uploadHandler env req w).2.folders = w.folders ∧
        (uploadHandler env req w).2.users = w.users ∧
        (uploadHandler env req w).2.localFs = w.localFs ∧
        (uploadHandler env req w).2.remoteObjs =
          (ftpFilePath req.user.id fp file.filename, textBytes file.path) ::
            w.remoteObjs.filter (fun e => e.1 ≠ ftpFilePath req.user.id fp file.filename) ∧
        (uploadHandler env req w).2.nextFileId = w.nextFileId + 1 ∧
        (uploadHandler env req w).2.nextFolderId = w.nextFolderId) := by
  cases hfile : req.file with
  | none => left; simp [uploadHandler, hfile]
  | some file =>
    right
    cases hfl : folderLookup w req.folderId req.user.id with
    | none => left; exact ⟨file, rfl, rfl, by simp [uploadHandler, hfile, hfl]⟩
    | some fp =>
      right
      rcases createDirectory_cases env ("/users/" ++ toString req.user.id) w with h1 | h1 | h1
      · left
        refine ⟨file, fp, newEvents w (uploadHandler env req w).2, rfl, rfl, ?_⟩
        simp [uploadHandler, hfile, hfl, h1, Event.isQuiet, newEvents, connectFailed, ftpDone]
      · left
        refine ⟨file, fp, newEvents w (uploadHandler env req w).2, rfl, rfl, ?_⟩
        simp [uploadHandler, hfile, hfl, h1, Event.isQuiet, newEvents, connectFailed, ftpDone]
      · by_cases hfp : fp = ""
        · subst hfp
          rcases uploadFile_cases env file.path (ftpFilePath req.user.id "" file.filename)
            (mkdirDone ("/users/" ++ toString req.user.id) w) with h3 | h3 | h3
          · left
            refine ⟨file, "", newEvents w (uploadHandler env req w).2, rfl, rfl, ?_⟩
            simp only [uploadHandler, hfile, hfl, h1, h3, ne_eq, not_true_eq_false, ite_false]
            simp [Event.isQuiet, newEvents, connectFailed, ftpDone, mkdirDone]
          · left
            refine ⟨file, "", newEvents w (uploadHandler env req w).2, rfl, rfl, ?_⟩
            simp only [uploadHandler, hfile, hfl, h1, h3, ne_eq, not_true_eq_false, ite_false]
            simp [Event.isQuiet, newEvents, connectFailed, ftpDone, mkdirDone]
          · right
            have hdata : putData (mkdirDone ("/users/" ++ toString req.user.id) w) file.path =
                putData w file.path := rfl
            rw [hdata] at h3
            cases hins : env.fileInsertOk w.nextFileId
            · left
              refine ⟨file, "", putData w file.path, rfl, rfl, rfl, ?_⟩
              simp only [uploadHandler, hfile, hfl, h1, h3, ne_eq, not_true_eq_false, ite_false]
              simp [createFile, hins, World.emit,
                provisionEvents, transferConn, ftpDone, mkdirDone, putDone]
            · right
              cases hb2 : w.localFs.lookup file.path with
              | some b =>
                left
                have hpd : putData w file.path = b := by simp [putData, readLocal, hb2]
                rw [hpd] at h3
                refine ⟨file, "", b, rfl, rfl, hb2, ?_⟩
                simp only [uploadHandler, hfile, hfl, h1, h3, ne_eq, not_true_eq_false,
                  ite_false]
                simp [createFile, hins, World.emit,
                  provisionEvents, transferConn, ftpDone, mkdirDone, putDone, unlinkSync,
                  existsSync, unlink, hb2, uploadRecord]
              | none =>
                right
                have hpd : putData w file.path = textBytes file.path := by
                  simp [putData, readLocal, hb2]
                rw [hpd] at h3
                refine ⟨file, "", rfl, rfl, hb2, ?_⟩
                simp only [uploadHandler, hfile, hfl, h1, h3, ne_eq, not_true_eq_false,
                  ite_false]
                simp [createFile, hins, World.emit,
                  provisionEvents, transferConn, ftpDone, mkdirDone, putDone, unlinkSync,
                  existsSync, unlink, hb2, uploadRecord, jsonMessage]
        · rcases createDirectory_cases env fp
            (mkdirDone ("/users/" ++ toString req.user.id) w) with h2 | h2 | h2
          · left
            refine ⟨file, fp, newEvents w (uploadHandler env req w).2, rfl, rfl, ?_⟩
            simp only [uploadHandler, hfile, hfl, h1, h2, ne_eq, hfp, not_false_eq_true, ite_true]
            simp [Event.isQuiet, newEvents, connectFailed, ftpDone, mkdirDone]
          · left
            refine ⟨file, fp, newEvents w (uploadHandler env req w).2, rfl, rfl, ?_⟩
            simp only [uploadHandler, hfile, hfl, h1, h2, ne_eq, hfp, not_false_eq_true, ite_true]
            simp [Event.isQuiet, newEvents, connectFailed, ftpDone, mkdirDone]
          · rcases uploadFile_cases env file.path (ftpFilePath req.user.id fp file.filename)
              (mkdirDone fp (mkdirDone ("/users/" ++ toString req.user.id) w)) with
              h3 | h3 | h3
            · left
              refine ⟨file, fp, newEvents w (uploadHandler env req w).2, rfl, rfl, ?_⟩
              simp only [uploadHandler, hfile, hfl, h1, h2, h3, ne_eq, hfp, not_false_eq_true,
                ite_true]
              simp [Event.isQuiet, newEvents, connectFailed, ftpDone, mkdirDone]
            · left
              refine ⟨file, fp, newEvents w (uploadHandler env req w).2, rfl, rfl, ?_⟩
              simp only [uploadHandler, hfile, hfl, h1, h2, h3, ne_eq, hfp, not_false_eq_true,
                ite_true]
              simp [Event.isQuiet, newEvents, connectFailed, ftpDone, mkdirDone]
            · right
              have hdata : putData (mkdirDone fp (mkdirDone ("/users/" ++ toString req.user.id) w))
                  file.path = putData w file.path := rfl
              rw [hdata] at h3
              cases hins : env.fileInsertOk w.nextFileId
              · left
                refine ⟨file, fp, putData w file.path, rfl, rfl, rfl, ?_⟩
                simp only [uploadHandler, hfile, hfl, h1, h2, h3, ne_eq, hfp, not_false_eq_true,
                  ite_true]
                simp [createFile, hins, World.emit, hfp,
                  provisionEvents, transferConn, ftpDone, mkdirDone, putDone]
              · right
                cases hb2 : w.localFs.lookup file.path with
                | some b =>
                  left
                  have hpd : putData w file.path = b := by simp [putData, readLocal, hb2]
                  rw [hpd] at h3
                  refine ⟨file, fp, b, rfl, rfl, hb2, ?_⟩
                  simp only [uploadHandler, hfile, hfl, h1, h2, h3, ne_eq, hfp,
                    not_false_eq_true, ite_true]
                  simp [createFile, hins, World.emit, hfp,
                    provisionEvents, transferConn, ftpDone, mkdirDone, putDone, unlinkSync,
                    existsSync, unlink, hb2, uploadRecord]
                | none =>
                  right
                  have hpd : putData w file.path = textBytes file.path := by
                    simp [putData, readLocal, hb2]
                  rw [hpd] at h3
                  refine ⟨file, fp, rfl, rfl, hb2, ?_⟩
                  simp only [uploadHandler, hfile, hfl, h1, h2, h3, ne_eq, hfp,
                    not_false_eq_true, ite_true]
                  simp [createFile, hins, World.emit, hfp,
                    provisionEvents, transferConn, ftpDone, mkdirDone, putDone, unlinkSync,
                    existsSync, unlink, hb2, uploadRecord, jsonMessage]

theorem provisionEvents_quiet (c u : Nat) (fp : String) :
    ∀ e ∈ provisionEvents c u fp, e.isQuiet = true ∧ e.isRemoteFailure = false := by
  intro e he
  by_cases hfp : fp = ""
  · simp [provisionEvents, hfp] at he
    rcases he with h | h | h <;> subst h <;> simp [Event.isQuiet, Event.isRemoteFailure]
  · simp [provisionEvents, hfp] at he
    rcases he with h | h | h | h | h | h <;> subst h <;>
      simp [Event.isQuiet, Event.isRemoteFailure]

theorem isQuiet_not_put (e : Event) (h : e.isQuiet = true) :
    (∀ c l p, e ≠ Event.put c l p true) ∧ (∀ p ok, e ≠ Event.fileCreate p ok) ∧
    (∀ p, e ≠ Event.unlink p) := by
  refine ⟨fun c l p he => ?_, fun p ok he => ?_, fun p he => ?_⟩ <;> subst he <;>
    simp [Event.isQuiet] at h

/-- C1 (upload atomicity).  In every run of the upload handler: if a remote
step of the request was refused (a connection, a `createDirectory` or the
`uploadFile` itself), or more generally if no `put` of the request succeeded,
then `File.create` is not called, the file records are unchanged and the answer
is an error status; and if `File.create` is called for a path, then earlier in
the same request a `put` to exactly that path succeeded, and the record that is
stored, if any, is the only change to the file records and carries that path. -/
theorem upload_atomicity (env : Env) (req : UploadRequest) (w : World) :
    (((∃ e ∈ newEvents w (uploadHandler env req w).2, e.isRemoteFailure = true) ∨
        (∀ c l p, Event.put c l p true ∉ newEvents w (uploadHandler env req w).2)) →
      (uploadHandler env req w).2.files = w.files ∧
      (∀ p ok, Event.fileCreate p ok ∉ newEvents w (uploadHandler env req w).2) ∧
      400 ≤ (uploadHandler env req w).1.status) ∧
    (∀ p ok, Event.fileCreate p ok ∈ newEvents w (uploadHandler env req w).2 →
      ∃ c l pre post, newEvents w (uploadHandler env req w).2 =
          pre ++ Event.put c l p true :: post ∧
        Event.fileCreate p ok ∈ post ∧ (∀ q b, Event.fileCreate q b ∉ pre)) ∧
    ((uploadHandler env req w).2.files = w.files ∨
      ∃ r, (uploadHandler env req w).2.files = w.files ++ [r] ∧
        Event.fileCreate r.ftp_path true ∈ newEvents w (uploadHandler env req w).2 ∧
        ((uploadHandler env req w).2.remoteObjs.lookup r.ftp_path).isSome = true) := by
  rcases upload_cases env req w with ⟨_, h⟩ | ⟨file, _, _, h⟩ |
    ⟨file, fp, evs, _, _, hr, hlog, hq, _, hfiles, _⟩ |
    ⟨file, fp, b, _, _, _, hr, hlog, hfiles, _, _, _, hobjs, _⟩ |
    ⟨file, fp, b, _, _, _, hr, hlog, hfiles, _, _, _, hobjs, _⟩ |
    ⟨file, fp, _, _, _, hr, hlog, hfiles, _, _, _, hobjs, _⟩
  · simp [h, newEvents, jsonMessage]
  · simp [h, newEvents, jsonMessage]
  · rw [newEvents_append w _ evs hlog, hr, hfiles]
    refine ⟨fun _ => ⟨rfl, fun p ok hmem => (isQuiet_not_put _ (hq _ hmem)).2.1 p ok rfl,
      by simp [jsonMessage]⟩, fun p ok hmem => ?_, Or.inl rfl⟩
    exact absurd rfl ((isQuiet_not_put _ (hq _ hmem)).2.1 p ok)
  · rw [newEvents_append w _ _ hlog, hr, hfiles]
    have hp := provisionEvents_quiet w.nextConn req.user.id fp
    refine ⟨fun h => ?_, fun p ok hmem => ?_, Or.inl rfl⟩
    · exfalso
      rcases h with ⟨e, he, hfail⟩ | h
      · simp only [List.mem_append, List.mem_cons, List.mem_singleton, List.not_mem_nil,
          or_false] at he
        rcases he with he | he | he | he | he
        · simp [(hp e he).2] at hfail
        all_goals (subst he; simp [Event.isRemoteFailure] at hfail)
      · exact h (transferConn w.nextConn fp) file.path
          (ftpFilePath req.user.id fp file.filename) (by simp)
    · simp only [List.mem_append, List.mem_cons, List.mem_singleton, List.not_mem_nil,
        or_false] at hmem
      rcases hmem with he | he | he | he | he
      · exact absurd rfl ((isQuiet_not_put _ (hp _ he).1).2.1 p ok)
      · cases he
      · cases he
      · cases he
      · cases he
        refine ⟨transferConn w.nextConn fp, file.path,
          provisionEvents w.nextConn req.user.id fp ++ [Event.connect (transferConn w.nextConn fp) true],
          [Event.clientEnd (transferConn w.nextConn fp),
            Event.fileCreate (ftpFilePath req.user.id fp file.filename) false], by simp, by simp, ?_⟩
        intro q b' hmem
        simp only [List.mem_append, List.mem_singleton] at hmem
        rcases hmem with he | he
        · exact absurd rfl ((isQuiet_not_put _ (hp _ he).1).2.1 q b')
        · cases he
  · rw [newEvents_append w _ _ hlog, hr, hfiles]
    have hp := provisionEvents_quiet w.nextConn req.user.id fp
    refine ⟨fun h => ?_, fun p ok hmem => ?_, Or.inr ⟨_, rfl, by simp [uploadRecord],
      by simp [uploadRecord, hobjs, List.lookup]⟩⟩
    · exfalso
      rcases h with ⟨e, he, hfail⟩ | h
      · simp only [List.mem_append, List.mem_cons, List.mem_singleton, List.not_mem_nil,
          or_false] at he
        rcases he with he | he | he | he | he | he
        · simp [(hp e he).2] at hfail
        all_goals (subst he; simp [Event.isRemoteFailure] at hfail)
      · exact h (transferConn w.nextConn fp) file.path
          (ftpFilePath req.user.id fp file.filename) (by simp)
    · simp only [List.mem_append, List.mem_cons, List.mem_singleton, List.not_mem_nil,
        or_false] at hmem
      rcases hmem with he | he | he | he | he | he
      · exact absurd rfl ((isQuiet_not_put _ (hp _ he).1).2.1 p ok)
      · cases he
      · cases he
      · cases he
      · cases he
        refine ⟨transferConn w.nextConn fp, file.path,
          provisionEvents w.nextConn req.user.id fp ++ [Event.connect (transferConn w.nextConn fp) true],
          [Event.clientEnd (transferConn w.nextConn fp),
            Event.fileCreate (ftpFilePath req.user.id fp file.filename) true,
            Event.unlink file.path], by simp, by simp, ?_⟩
        intro q b' hmem
        simp only [List.mem_append, List.mem_singleton] at hmem
        rcases hmem with he | he
        · exact absurd rfl ((isQuiet_not_put _ (hp _ he).1).2.1 q b')
        · cases he
      · cases he
  · rw [newEvents_append w _ _ hlog, hr, hfiles]
    have hp := provisionEvents_quiet w.nextConn req.user.id fp
    refine ⟨fun h => ?_, fun p ok hmem => ?_, Or.inr ⟨_, rfl, by simp [uploadRecord],
      by simp [uploadRecord, hobjs, List.lookup]⟩⟩
    · exfalso
      rcases h with ⟨e, he, hfail⟩ | h
      · simp only [List.mem_append, List.mem_cons, List.mem_singleton, List.not_mem_nil,
          or_false] at he
        rcases he with he | he | he | he | he
        · simp [(hp e he).2] at hfail
        all_goals (subst he; simp [Event.isRemoteFailure] at hfail)
      · exact h (transferConn w.nextConn fp) file.path
          (ftpFilePath req.user.id fp file.filename) (by simp)
    · simp only [List.mem_append, List.mem_cons, List.mem_singleton, List.not_mem_nil,
        or_false] at hmem
      rcases hmem with he | he | he | he | he
      · exact absurd rfl ((isQuiet_not_put _ (hp _ he).1).2.1 p ok)
      · cases he
      · cases he
      · cases he
      · cases he
        refine ⟨transferConn w.nextConn fp, file.path,
          provisionEvents w.nextConn req.user.id fp ++ [Event.connect (transferConn w.nextConn fp) true],
          [Event.clientEnd (transferConn w.nextConn fp),
            Event.fileCreate (ftpFilePath req.user.id fp file.filename) true], by simp, by simp, ?_⟩
        intro q b' hmem
        simp only [List.mem_append, List.mem_singleton] at hmem
        rcases hmem with he | he
        · exact absurd rfl ((isQuiet_not_put _ (hp _ he).1).2.1 q b')
        · cases he

/-- Witness of C1: with the `put` refused, user 7's upload of `report.pdf`
logs a refused remote step, stores no record and answers 500; in the healthy
environment `File.create` is called and the `put` to the same path precedes it. -/
theorem upload_atomicity_witness :
    ((∃ e ∈ newEvents stagedWorld (uploadHandler putRefused reportUpload stagedWorld).2,
        e.isRemoteFailure = true) ∧
      (uploadHandler putRefused reportUpload stagedWorld).2.files = stagedWorld.files ∧
      400 ≤ (uploadHandler putRefused reportUpload stagedWorld).1.status) ∧
    (Event.fileCreate "/users/7/report.pdf" true ∈
        newEvents stagedWorld (uploadHandler Env.healthy reportUpload stagedWorld).2 ∧
      ∃ c l pre post, newEvents stagedWorld (uploadHandler Env.healthy reportUpload stagedWorld).2 =
          pre ++ Event.put c l "/users/7/report.pdf" true :: post ∧
        Event.fileCreate "/users/7/report.pdf" true ∈ post ∧
        (∀ q b, Event.fileCreate q b ∉ pre)) :=
  have hfail : ∃ e ∈ newEvents stagedWorld (uploadHandler putRefused reportUpload stagedWorld).2,
      e.isRemoteFailure = true :=
    ⟨Event.put 1 "uploads/report.pdf" "/users/7/report.pdf" false, by decide, rfl⟩
  have hcall : Event.fileCreate "/users/7/report.pdf" true ∈
      newEvents stagedWorld (uploadHandler Env.healthy reportUpload stagedWorld).2 := by decide
  ⟨⟨hfail, ((upload_atomicity putRefused reportUpload stagedWorld).1 (Or.inl hfail)).1,
      ((upload_atomicity putRefused reportUpload stagedWorld).1 (Or.inl hfail)).2.2⟩,
    hcall, (upload_atomicity Env.healthy reportUpload stagedWorld).2.1 _ _ hcall⟩

/-- C3 (folder scoping).  An upload with a staged file that names a folder id
for which no folder record with that id and the requester's `user_id` exists
(none at all, or one owned by somebody else) is answered 404 and leaves the
world exactly as it was: no call is logged (no connection, no
`createDirectory`, no `uploadFile`, no `File.create`), and the remote store
and the file records are unchanged. -/
theorem upload_folder_scoping (env : Env) (req : UploadRequest) (w : World)
    (file : StagedFile) (folderId : Nat)
    (hfile : req.file = some file) (hfolder : req.folderId = some folderId)
    (hnone : ∀ f ∈ w.folders, ¬ (f.id = folderId ∧ f.user_id = req.user.id)) :
    (uploadHandler env req w).1.status = 404 ∧
    (uploadHandler env req w).2 = w ∧
    newEvents w (uploadHandler env req w).2 = [] ∧
    (uploadHandler env req w).2.files = w.files ∧
    (uploadHandler env req w).2.remoteObjs = w.remoteObjs ∧
    (uploadHandler env req w).2.remoteDirs = w.remoteDirs := by
  have hfind : findOneFolder w folderId req.user.id = none := by
    simp only [findOneFolder, List.find?_eq_none]
    intro f hf
    simpa using hnone f hf
  have h : uploadHandler env req w =
      (jsonMessage 404 "Folder not found or does not belong to you", w) := by
    simp [uploadHandler, hfile, hfolder, folderLookup, hfind]
  simp [h, jsonMessage, newEvents]

/-- Witness of C3: folder 3 belongs to user 1, and user 7 names it in an
upload. -/
theorem upload_folder_scoping_witness :
    (uploadHandler Env.healthy strayUpload foreignFolderWorld).1.status = 404 ∧
    newEvents foreignFolderWorld
      (uploadHandler Env.healthy strayUpload foreignFolderWorld).2 = [] :=
  have h := upload_folder_scoping Env.healthy strayUpload foreignFolderWorld
    reportPdf 3 rfl rfl (by decide)
  ⟨h.1, h.2.2.1⟩

/-- C4 (staging file, failing input).  User 7 uploads `report.pdf`; the
transfer succeeds (the remote store holds the bytes at `/users/7/report.pdf`)
and `File.create` is refused.  The handler answers 500 through its `catch`
block, which does not unlink: the staging file `uploads/report.pdf` is still on
the local disk and no `unlink` was issued.  In the healthy environment the same
request removes it. -/
theorem upload_staging_left_on_metadata_failure :
    (uploadHandler insertRefused reportUpload stagedWorld).1.status = 500 ∧
    ((uploadHandler insertRefused reportUpload stagedWorld).2.remoteObjs.lookup
      "/users/7/report.pdf").isSome = true ∧
    Event.fileCreate "/users/7/report.pdf" false ∈
      newEvents stagedWorld (uploadHandler insertRefused reportUpload stagedWorld).2 ∧
    Event.unlink "uploads/report.pdf" ∉
      newEvents stagedWorld (uploadHandler insertRefused reportUpload stagedWorld).2 ∧
    existsSync (uploadHandler insertRefused reportUpload stagedWorld).2 "uploads/report.pdf"
      = true ∧
    existsSync (uploadHandler Env.healthy reportUpload stagedWorld).2 "uploads/report.pdf"
      = false := by
  decide

/-! ## The namespace invariant -/

theorem beginsWith_append (p rest : String) : beginsWith (p ++ rest) p := by
  simp [beginsWith, String.data_append]

theorem beginsWith_append_right (s p rest : String) (h : beginsWith s p) :
    beginsWith (s ++ rest) p := by
  unfold beginsWith at *
  rw [String.data_append]
  exact h.trans (List.prefix_append _ _)

theorem beginsWith_ne_empty (s : String) (u : Nat) (h : beginsWith s (userNamespace u)) :
    s ≠ "" := by
  intro hs
  subst hs
  simp [beginsWith, userNamespace, String.data_append] at h

theorem folderLookup_some (w : World) (folderId : Option Nat) (u : Nat) (fp : String)
    (h : folderLookup w folderId u = some fp) :
    (folderId = none ∧ fp = "") ∨
    (∃ id f, folderId = some id ∧ findOneFolder w id u = some f ∧ f ∈ w.folders ∧
      f.id = id ∧ f.user_id = u ∧ f.ftp_path = fp) := by
  cases folderId with
  | none => left; simpa [folderLookup, eq_comm] using h
  | some id =>
    right
    simp only [folderLookup, Option.map_eq_some'] at h
    obtain ⟨f, hf, hfp⟩ := h
    have hmem := List.mem_of_find?_eq_some hf
    have hp := List.find?_some hf
    simp only [decide_eq_true_eq] at hp
    exact ⟨id, f, rfl, by simpa [findOneFolder] using hf, hmem, hp.1, hp.2, hfp⟩

/-- The destination computed by the upload handler lies in the namespace of the
requester whenever the folders do. -/
theorem ftpFilePath_namespace (w : World) (hw : WellFormed w) (folderId : Option Nat) (u : Nat)
    (fp filename : String) (h : folderLookup w folderId u = some fp) :
    beginsWith (ftpFilePath u fp filename) (userNamespace u) := by
  rcases folderLookup_some w folderId u fp h with ⟨_, hfp⟩ | ⟨id, f, _, _, hmem, _, hu, hfp⟩
  · subst hfp
    simp only [ftpFilePath, ne_eq, not_true_eq_false, ite_false]
    exact beginsWith_append _ _
  · have hns := hw.folderPaths f hmem
    rw [hu, hfp] at hns
    have hne := beginsWith_ne_empty fp u hns
    simp only [ftpFilePath, ne_eq, hne, not_false_eq_true, ite_true]
    exact beginsWith_append_right _ _ _ (beginsWith_append_right _ _ _ hns)

theorem upload_wellFormed (env : Env) (req : UploadRequest) (w : World) (hw : WellFormed w) :
    WellFormed (uploadHandler env req w).2 := by
  rcases upload_cases env req w with ⟨_, h⟩ | ⟨file, _, _, h⟩ |
    ⟨file, fp, evs, _, _, _, _, _, _, hfiles, hfolders, _, _, _, hid, hfid⟩ |
    ⟨file, fp, b, _, _, _, _, _, hfiles, hfolders, _, _, _, hid, hfid⟩ |
    ⟨file, fp, b, _, hfl, _, _, _, hfiles, hfolders, _, _, _, hid, hfid⟩ |
    ⟨file, fp, _, hfl, _, _, _, hfiles, hfolders, _, _, _, hid, hfid⟩
  · rw [h]; exact hw
  · rw [h]; exact hw
  · exact ⟨by rw [hfolders]; exact hw.folderPaths, by rw [hfiles]; exact hw.filePaths,
      by rw [hfiles, hid]; exact hw.fileIds, by rw [hfolders, hfid]; exact hw.folderIds⟩
  · exact ⟨by rw [hfolders]; exact hw.folderPaths, by rw [hfiles]; exact hw.filePaths,
      by rw [hfiles, hid]; exact hw.fileIds, by rw [hfolders, hfid]; exact hw.folderIds⟩
  all_goals
    refine ⟨by rw [hfolders]; exact hw.folderPaths, ?_, ?_,
      by rw [hfolders, hfid]; exact hw.folderIds⟩
    · rw [hfiles]
      intro r hr
      rcases List.mem_append.1 hr with hr | hr
      · exact hw.filePaths r hr
      · rw [List.mem_singleton.1 hr]
        exact ftpFilePath_namespace w hw req.folderId req.user.id fp file.filename hfl
    · rw [hfiles, hid]
      intro r hr
      rcases List.mem_append.1 hr with hr | hr
      · exact Nat.lt_succ_of_lt (hw.fileIds r hr)
      · rw [List.mem_singleton.1 hr]
        exact Nat.lt_succ_self _

/-- Every run of the create-folder handler either leaves the records alone or
appends one folder record, whose path is `/users/{userId}/{folderName}`. -/
theorem createFolder_cases (env : Env) (req : CreateFolderRequest) (w : World) :
    ((createFolderHandler env req w).2.folders = w.folders ∧
      (createFolderHandler env req w).2.nextFolderId = w.nextFolderId ∧
      (createFolderHandler env req w).1.status ≠ 201 ∨
     (createFolderHandler env req w).2.folders = w.folders ++
        [{ id := w.nextFolderId, user_id := req.user.id, folder_name := req.folderName,
           folder_path := "./uploads/" ++ toString req.user.id ++ "/" ++ req.folderName,
           ftp_path := "/users/" ++ toString req.user.id ++ "/" ++ req.folderName }] ∧
      (createFolderHandler env req w).2.nextFolderId = w.nextFolderId + 1 ∧
      (createFolderHandler env req w).1.status = 201) ∧
    (createFolderHandler env req w).2.files = w.files ∧
    (createFolderHandler env req w).2.users = w.users ∧
    (createFolderHandler env req w).2.nextFileId = w.nextFileId ∧
    (createFolderHandler env req w).2.localFs = w.localFs := by
  by_cases hname : req.folderName = ""
  · simp [createFolderHandler, hname, jsonMessage]
  · rcases createDirectory_cases env ("/users/" ++ toString req.user.id) w with h1 | h1 | h1
    · simp only [createFolderHandler, hname, ite_false, h1]
      simp [connectFailed, ftpDone, jsonMessage]
    · simp only [createFolderHandler, hname, ite_false, h1]
      simp [connectFailed, ftpDone, jsonMessage]
    · rcases createDirectory_cases env ("/users/" ++ toString req.user.id ++ "/" ++ req.folderName)
        (mkdirDone ("/users/" ++ toString req.user.id) w) with h2 | h2 | h2
      · simp only [createFolderHandler, hname, ite_false, h1, h2]
        simp [connectFailed, ftpDone, mkdirDone, jsonMessage]
      · simp only [createFolderHandler, hname, ite_false, h1, h2]
        simp [connectFailed, ftpDone, mkdirDone, jsonMessage]
      · cases hins : env.folderInsertOk w.nextFolderId
        · simp only [createFolderHandler, hname, ite_false, h1, h2]
          simp [createFolder, hins, World.emit, ftpDone, mkdirDone, jsonMessage]
        · simp only [createFolderHandler, hname, ite_false, h1, h2]
          simp [createFolder, hins, World.emit, ftpDone, mkdirDone]

theorem createFolder_wellFormed (env : Env) (req : CreateFolderRequest) (w : World)
    (hw : WellFormed w) : WellFormed (createFolderHandler env req w).2 := by
  obtain ⟨h, hfiles, _, hid, _⟩ := createFolder_cases env req w
  rcases h with ⟨hfolders, hfid, _⟩ | ⟨hfolders, hfid, _⟩
  · exact ⟨by rw [hfolders]; exact hw.folderPaths, by rw [hfiles]; exact hw.filePaths,
      by rw [hfiles, hid]; exact hw.fileIds, by rw [hfolders, hfid]; exact hw.folderIds⟩
  · refine ⟨?_, by rw [hfiles]; exact hw.filePaths, by rw [hfiles, hid]; exact hw.fileIds, ?_⟩
    · rw [hfolders]
      intro f hf
      rcases List.mem_append.1 hf with hf | hf
      · exact hw.folderPaths f hf
      · rw [List.mem_singleton.1 hf]
        exact beginsWith_append _ _
    · rw [hfolders, hfid]
      intro f hf
      rcases List.mem_append.1 hf with hf | hf
      · exact Nat.lt_succ_of_lt (hw.folderIds f hf)
      · rw [List.mem_singleton.1 hf]
        exact Nat.lt_succ_self _

theorem lookup_filter_ne (l : List (String × Bytes)) (p : String) :
    (l.filter (fun e => e.1 ≠ p)).lookup p = none := by
  induction l with
  | nil => rfl
  | cons e l ih =>
    by_cases h : e.1 = p
    · rw [List.filter_cons]
      simpa [h] using ih
    · have h2 : (p == e.1) = false := beq_false_of_ne (fun h3 => h h3.symm)
      rw [List.filter_cons]
      have h4 : decide (e.1 ≠ p) = true := decide_eq_true h
      rw [if_pos h4]
      cases e with
      | mk a b =>
        show (match p == a with
          | true => some b
          | false => List.lookup p (List.filter (fun e => decide (e.1 ≠ p)) l)) = none
        simp only [] at h2
        rw [h2]
        exact ih

theorem downloadFile_cases (env : Env) (rp lp : String) (w : World) :
    downloadFile env rp lp w = (Except.error FtpError.connection, connectFailed w)
    ∨ downloadFile env rp lp w =
        (Except.error (FtpError.remote rp), ftpDone (Event.get w.nextConn rp false) w)
    ∨ (∃ b, w.remoteObjs.lookup rp = some b ∧
        downloadFile env rp lp w = (Except.ok lp, fetchDone rp lp b w))
    ∨ downloadFile env rp lp w =
        (Except.error (FtpError.localWrite lp), fetchWriteFailed rp lp w) := by
  cases h1 : env.connectOk w.nextConn <;> cases h2 : env.remoteOk w.nextConn <;>
    cases h3 : w.remoteObjs.lookup rp <;> cases h4 : env.writeOk w.nextConn <;>
    simp [downloadFile, connect, clientGet, clientEnd, World.emit, writeLocal, unlink,
      h1, h2, h3, h4, connectFailed, ftpDone, fetchDone, fetchWriteFailed, List.filter_filter]

/-- The download handler changes neither the metadata nor the remote store. -/
theorem download_frame (env : Env) (req : DownloadRequest) (w : World) :
    (downloadHandler env req w).2.files = w.files ∧
    (downloadHandler env req w).2.folders = w.folders ∧
    (downloadHandler env req w).2.users = w.users ∧
    (downloadHandler env req w).2.nextFileId = w.nextFileId ∧
    (downloadHandler env req w).2.nextFolderId = w.nextFolderId ∧
    (downloadHandler env req w).2.remoteObjs = w.remoteObjs := by
  unfold downloadHandler
  cases hfind : findFileByPk w req.fileId with
  | none => simp
  | some file =>
    simp only
    split
    · simp
    · rcases downloadFile_cases env file.ftp_path (tempPath req.param w.now file.filename) w
        with h | h | ⟨b, _, h⟩ | h
      · simp only [h]
        simp only [cleanupTemp]
        split <;> simp [connectFailed, unlink, World.emit]
      · simp only [h]
        simp only [cleanupTemp]
        split <;> simp [ftpDone, unlink, World.emit]
      · simp only [h]
        cases hread : readLocal (interfere env (tempPath req.param w.now file.filename)
          (fetchDone file.ftp_path (tempPath req.param w.now file.filename) b w))
          (tempPath req.param w.now file.filename) with
        | none =>
          simp only [interfere]
          split <;> simp [fetchDone, ftpDone]
        | some content =>
          simp only
          cases env.stream with
          | ended =>
            simp only [interfere]
            split <;> simp [fetchDone, ftpDone, unlink, World.emit]
          | error sent =>
            simp only [interfere, cleanupTemp]
            split <;> split <;> split <;> simp [fetchDone, ftpDone, unlink, World.emit]
          | aborted chunks =>
            simp only [interfere]
            split <;> split <;> simp [fetchDone, ftpDone, unlink, World.emit]
      · simp only [h]
        simp only [cleanupTemp]
        split <;> simp [fetchWriteFailed, unlink, World.emit]

/-- The delete-file handler removes at most file records and changes no other
table, and then only after `deleteFile` resolved. -/
theorem deleteFile_frame (env : Env) (fileId : Nat) (w : World) :
    ((deleteFileHandler env fileId w).2.files = w.files ∨
      ∃ id, (deleteFileHandler env fileId w).2.files = w.files.filter (fun f => f.id ≠ id)) ∧
    (deleteFileHandler env fileId w).2.folders = w.folders ∧
    (deleteFileHandler env fileId w).2.users = w.users ∧
    (deleteFileHandler env fileId w).2.nextFileId = w.nextFileId ∧
    (deleteFileHandler env fileId w).2.nextFolderId = w.nextFolderId := by
  unfold deleteFileHandler
  cases hfind : findFileByPk w fileId with
  | none => simp
  | some file =>
    rcases deleteFile_cases env file.ftp_path w with h | h | h
    · simp [h, connectFailed]
    · simp [h, ftpDone]
    · simp only [h]
      refine ⟨Or.inr ⟨file.id, ?_⟩, ?_⟩ <;> simp [destroyFile, World.emit, deleteDone, ftpDone]

/-- The delete-user handler removes records and changes no counter. -/
theorem deleteUser_frame (env : Env) (req : DeleteUserRequest) (w : World) :
    ((deleteUserHandler env req w).2 = w ∨
      ∃ userId, (deleteUserHandler env req w).2 = cascadeDelete userId w) := by
  unfold deleteUserHandler
  split
  · exact Or.inl rfl
  · split
    · exact Or.inl rfl
    · split
      · exact Or.inl rfl
      · split
        · exact Or.inl rfl
        · split
          · exact Or.inl rfl
          · split
            · exact Or.inr ⟨_, rfl⟩
            · exact Or.inl rfl

theorem wellFormed_of_sublists (w w2 : World) (hw : WellFormed w)
    (hfolders : ∀ f ∈ w2.folders, f ∈ w.folders) (hfiles : ∀ r ∈ w2.files, r ∈ w.files)
    (hid : w2.nextFileId = w.nextFileId) (hfid : w2.nextFolderId = w.nextFolderId) :
    WellFormed w2 :=
  ⟨fun f hf => hw.folderPaths f (hfolders f hf), fun r hr => hw.filePaths r (hfiles r hr),
    fun r hr => hid ▸ hw.fileIds r (hfiles r hr),
    fun f hf => hfid ▸ hw.folderIds f (hfolders f hf)⟩

theorem handle_wellFormed (env : Env) (req : Request) (w : World) (hw : WellFormed w) :
    WellFormed (handle env req w).2 := by
  cases req with
  | upload r => exact upload_wellFormed env r w hw
  | createFolder r => exact createFolder_wellFormed env r w hw
  | download r =>
    obtain ⟨h1, h2, _, h4, h5, _⟩ := download_frame env r w
    exact wellFormed_of_sublists w _ hw (by simp [handle, h2]) (by simp [handle, h1]) h4 h5
  | deleteFile fileId =>
    obtain ⟨h1, h2, _, h4, h5⟩ := deleteFile_frame env fileId w
    refine wellFormed_of_sublists w _ hw (by simp [handle, h2]) ?_ h4 h5
    rcases h1 with h1 | ⟨id, h1⟩
    · simp [handle, h1]
    · intro r hr
      simp only [handle, h1] at hr
      exact (List.mem_filter.1 hr).1
  | deleteUser r =>
    rcases deleteUser_frame env r w with h | ⟨userId, h⟩
    · simp only [handle, h]; exact hw
    · simp only [handle, h]
      exact wellFormed_of_sublists w _ hw
        (fun f hf => (List.mem_filter.1 hf).1) (fun f hf => (List.mem_filter.1 hf).1) rfl rfl

/-- The invariant holds in every world the service can be in. -/
theorem reachable_wellFormed (w : World) (h : Reachable w) : WellFormed w := by
  induction h with
  | init w hfolders hfiles =>
    exact ⟨by simp [hfolders], by simp [hfiles], by simp [hfiles], by simp [hfolders]⟩
  | request env req w _ ih => exact handle_wellFormed env req w ih
  | stage p b w _ ih => exact wellFormed_of_sublists w _ ih (fun _ h => h) (fun _ h => h) rfl rfl
  | tick t w _ ih => exact wellFormed_of_sublists w _ ih (fun _ h => h) (fun _ h => h) rfl rfl

/-- C7 (namespace invariant).  In every world reachable from an empty metadata
store by any sequence of upload, create-folder, download, delete-file and
delete-user requests (in any environment, with files staged and time passing
in between), the remote path of every file record begins with
`/users/{user_id}/` for the record's own `user_id`, and so does the remote path
of every folder record; and the record an upload adds in such a world carries
the `user_id` of the requester and a path in the requester's namespace. -/
theorem namespace_invariant (w : World) (h : Reachable w) :
    (∀ r ∈ w.files, beginsWith r.ftp_path ("/users/" ++ toString r.user_id ++ "/")) ∧
    (∀ f ∈ w.folders, beginsWith f.ftp_path ("/users/" ++ toString f.user_id ++ "/")) ∧
    (∀ (env : Env) (req : UploadRequest), ∀ r ∈ (uploadHandler env req w).2.files,
      r ∈ w.files ∨ (r.user_id = req.user.id ∧
        beginsWith r.ftp_path ("/users/" ++ toString req.user.id ++ "/"))) := by
  have hw := reachable_wellFormed w h
  refine ⟨hw.filePaths, hw.folderPaths, fun env req r hr => ?_⟩
  rcases upload_cases env req w with ⟨_, h⟩ | ⟨file, _, _, h⟩ |
    ⟨file, fp, evs, _, _, _, _, _, _, hfiles, _⟩ |
    ⟨file, fp, b, _, _, _, _, _, hfiles, _⟩ |
    ⟨file, fp, b, _, hfl, _, _, _, hfiles, _⟩ |
    ⟨file, fp, _, hfl, _, _, _, hfiles, _⟩
  · rw [h] at hr; exact Or.inl hr
  · rw [h] at hr; exact Or.inl hr
  · rw [hfiles] at hr; exact Or.inl hr
  · rw [hfiles] at hr; exact Or.inl hr
  all_goals
    rw [hfiles] at hr
    rcases List.mem_append.1 hr with hr | hr
    · exact Or.inl hr
    · rw [List.mem_singleton.1 hr]
      exact Or.inr ⟨rfl, ftpFilePath_namespace w hw req.folderId req.user.id fp file.filename hfl⟩

/-- Witness of C7: after user 7 created `invoices` and uploaded `report.pdf`
into it, the world is reachable, holds one file and one folder record, and
both lie in `/users/7/`. -/
theorem namespace_invariant_witness :
    invoicesWorld.files.map (fun r => (r.user_id, r.ftp_path)) =
      [(7, "/users/7/invoices/report.pdf")] ∧
    invoicesWorld.folders.map (fun f => (f.user_id, f.ftp_path)) = [(7, "/users/7/invoices")] ∧
    (∀ r ∈ invoicesWorld.files, beginsWith r.ftp_path ("/users/" ++ toString r.user_id ++ "/")) ∧
    (∀ f ∈ invoicesWorld.folders,
      beginsWith f.ftp_path ("/users/" ++ toString f.user_id ++ "/")) :=
  have h := namespace_invariant invoicesWorld
    (Reachable.request _ _ _ (Reachable.request _ _ _ (Reachable.init stagedWorld rfl rfl)))
  ⟨by decide, by decide, h.1, h.2.1⟩

/-- C2 (upload destination and persisted record).  In every reachable world, an
upload of a staged file `file` by user `u` that is answered 201 has put
`file.path` to the remote path `P` and appended one file record whose
`ftp_path` is the same `P`, where `P` is `/users/{u}/{file.filename}` when no
folder id was given and `{folder.ftp_path}/{file.filename}` when a folder id
was given and the folder found for `u`; the remote store then holds the staged
bytes at `P`; the record has `file_size = file.size`,
`file_type = file.mimetype`, `user_id = u` and as `folder_id` the given folder
id or null. -/
theorem upload_destination (env : Env) (req : UploadRequest) (w : World) (file : StagedFile)
    (hw : Reachable w) (hfile : req.file = some file)
    (hok : (uploadHandler env req w).1.status = 201) :
    ∃ P,
      (match req.folderId with
        | none => P = "/users/" ++ toString req.user.id ++ "/" ++ file.filename
        | some id => ∃ folder, findOneFolder w id req.user.id = some folder ∧
            P = folder.ftp_path ++ "/" ++ file.filename) ∧
      (∃ c, Event.put c file.path P true ∈ newEvents w (uploadHandler env req w).2) ∧
      (w.localFs.lookup file.path).isSome = true ∧
      (uploadHandler env req w).2.remoteObjs.lookup P = w.localFs.lookup file.path ∧
      (uploadHandler env req w).2.files = w.files ++
        [{ id := w.nextFileId, user_id := req.user.id, folder_id := req.folderId,
           filename := file.filename, original_name := file.originalname,
           file_path := file.path, file_size := file.size, file_type := file.mimetype,
           ftp_path := P }] := by
  have hwf := reachable_wellFormed w hw
  rcases upload_cases env req w with ⟨hnone, _⟩ | ⟨_, _, _, h⟩ |
    ⟨_, _, _, _, _, hr, _⟩ | ⟨_, _, _, _, _, _, hr, _⟩ |
    ⟨file2, fp, b, hfile2, hfl, hb, _, hlog, hfiles, _, _, _, hobjs, _⟩ |
    ⟨_, _, _, _, _, hr, _⟩
  · rw [hnone] at hfile; cases hfile
  · rw [h] at hok; simp [jsonMessage] at hok
  · rw [hr] at hok; simp [jsonMessage] at hok
  · rw [hr] at hok; simp [jsonMessage] at hok
  · rw [hfile] at hfile2
    cases hfile2
    refine ⟨ftpFilePath req.user.id fp file.filename, ?_, ⟨transferConn w.nextConn fp, ?_⟩,
      by simp [hb], ?_, by rw [hfiles]; rfl⟩
    · rcases folderLookup_some w req.folderId req.user.id fp hfl with
        ⟨hnone, hfp⟩ | ⟨id, f, hsome, hfind, hmem, _, hu, hfp⟩
      · rw [hnone, hfp]
        simp [ftpFilePath]
      · rw [hsome]
        have hns := hwf.folderPaths f hmem
        rw [hu] at hns
        have hne : fp ≠ "" := hfp ▸ beginsWith_ne_empty f.ftp_path req.user.id hns
        exact ⟨f, hfind, by simp [ftpFilePath, hne, hfp]⟩
    · rw [newEvents_append w _ _ hlog]
      simp
    · rw [hobjs, hb]
      simp [List.lookup]
  · rw [hr] at hok; simp [jsonMessage] at hok

/-- Witness of C2, the scenario of the spec: user 7 uploads `report.pdf`
(1,024 bytes) without a folder; the record has `ftp_path`
`/users/7/report.pdf` and `file_size` 1024, and the `put` went to that path. -/
theorem upload_destination_witness :
    (uploadHandler Env.healthy reportUpload stagedWorld).2.files =
      [{ id := 1, user_id := 7, folder_id := none, filename := "report.pdf",
         original_name := "report.pdf", file_path := "uploads/report.pdf", file_size := 1024,
         file_type := "application/pdf", ftp_path := "/users/7/report.pdf" }] ∧
    (∃ c, Event.put c "uploads/report.pdf" "/users/7/report.pdf" true ∈
      newEvents stagedWorld (uploadHandler Env.healthy reportUpload stagedWorld).2) := by
  obtain ⟨P, hP, hput, _, _, hfiles⟩ := upload_destination Env.healthy reportUpload stagedWorld
    reportPdf (Reachable.init stagedWorld rfl rfl) rfl (by decide)
  have hP2 : P = "/users/7/report.pdf" := by
    rw [show P = "/users/" ++ toString 7 ++ "/" ++ "report.pdf" from hP]
    decide
  subst hP2
  exact ⟨hfiles, hput⟩

/-! ## Download -/

theorem downloadFile_ok (env : Env) (rp lp : String) (b : Bytes) (w : World)
    (hconn : env.connectOk w.nextConn = true) (hrem : env.remoteOk w.nextConn = true)
    (hwrite : env.writeOk w.nextConn = true) (hobj : w.remoteObjs.lookup rp = some b) :
    downloadFile env rp lp w = (Except.ok lp, fetchDone rp lp b w) := by
  simp [downloadFile, connect, clientGet, clientEnd, World.emit, writeLocal, hconn, hrem,
    hwrite, hobj, ftpDone, fetchDone]

/-- A permitted download in an environment without faults streams the remote
object to the end. -/
theorem download_ok (env : Env) (req : DownloadRequest) (w : World) (file : File) (b : Bytes)
    (hfind : findFileByPk w req.fileId = some file)
    (hperm : req.user.role = "admin" ∨ file.user_id = req.user.id)
    (hconn : env.connectOk w.nextConn = true) (hrem : env.remoteOk w.nextConn = true)
    (hwrite : env.writeOk w.nextConn = true) (hlost : env.tempLost = false)
    (hstream : env.stream = StreamOutcome.ended)
    (hobj : w.remoteObjs.lookup file.ftp_path = some b) :
    downloadHandler env req w =
      ({ status := 200, headers := downloadHeaders env file b.length,
         payload := Payload.stream b },
        unlink (tempPath req.param w.now file.filename)
          (fetchDone file.ftp_path (tempPath req.param w.now file.filename) b w)) := by
  have hguard : (!(decide (req.user.role = "admin")) && decide (file.user_id ≠ req.user.id))
      = false := by
    rcases hperm with h | h <;> simp [h]
  have hread : readLocal (interfere env (tempPath req.param w.now file.filename)
      (fetchDone file.ftp_path (tempPath req.param w.now file.filename) b w))
      (tempPath req.param w.now file.filename) = some b := by
    simp [interfere, hlost, readLocal, fetchDone, ftpDone, List.lookup]
  simp only [downloadHandler, hfind, hguard,
    downloadFile_ok env file.ftp_path _ b w hconn hrem hwrite hobj, hread, hstream]
  simp [interfere, hlost]

theorem findFileByPk_appended (w : World) (hw : WellFormed w) (r : File)
    (hr : r.id = w.nextFileId) (w2 : World) (hfiles : w2.files = w.files ++ [r]) :
    findFileByPk w2 w.nextFileId = some r := by
  have hnone : w.files.find? (fun f => decide (f.id = w.nextFileId)) = none := by
    rw [List.find?_eq_none]
    intro f hf
    have := hw.fileIds f hf
    simp only [decide_eq_true_eq]
    omega
  simp [findFileByPk, hfiles, List.find?_append, hnone, hr]

/-- C6 (round trip).  Let an upload of a staged file with contents `B` be
answered 201 in a reachable world, and let the resulting record be downloaded,
by its owner or an administrator, in any later world `w2` with the same file
records and the same remote objects as the upload left (no intervening change
to the remote store), in an environment without faults whose client reads to
the end.  Then the download fetches from the `ftp_path` the upload put to,
answers 200 with a body identical to `B`, and sets `Content-Length` to the
length of `B`. -/
theorem round_trip (env env2 : Env) (req : UploadRequest) (dreq : DownloadRequest)
    (w w2 : World) (file : StagedFile) (B : Bytes)
    (hw : Reachable w) (hfile : req.file = some file)
    (hB : w.localFs.lookup file.path = some B)
    (hup : (uploadHandler env req w).1.status = 201)
    (hfiles : w2.files = (uploadHandler env req w).2.files)
    (hobjs : w2.remoteObjs = (uploadHandler env req w).2.remoteObjs)
    (hid : dreq.fileId = w.nextFileId)
    (hperm : dreq.user.role = "admin" ∨ dreq.user.id = req.user.id)
    (hconn : env2.connectOk w2.nextConn = true) (hrem : env2.remoteOk w2.nextConn = true)
    (hwrite : env2.writeOk w2.nextConn = true) (hlost : env2.tempLost = false)
    (hstream : env2.stream = StreamOutcome.ended) :
    ∃ r, (uploadHandler env req w).2.files = w.files ++ [r] ∧
      (∃ c, Event.put c file.path r.ftp_path true ∈ newEvents w (uploadHandler env req w).2) ∧
      Event.get w2.nextConn r.ftp_path true ∈ newEvents w2 (downloadHandler env2 dreq w2).2 ∧
      (downloadHandler env2 dreq w2).1.status = 200 ∧
      (downloadHandler env2 dreq w2).1.payload = Payload.stream B ∧
      ("Content-Length", toString B.length) ∈ (downloadHandler env2 dreq w2).1.headers := by
  have hwf := reachable_wellFormed w hw
  rcases upload_cases env req w with ⟨hnone, _⟩ | ⟨_, _, _, h⟩ |
    ⟨_, _, _, _, _, hr, _⟩ | ⟨_, _, _, _, _, _, hr, _⟩ |
    ⟨file2, fp, b, hfile2, hfl, hb, _, hlog, hfiles2, _, _, _, hobjs2, _⟩ |
    ⟨_, _, _, _, _, hr, _⟩
  · rw [hnone] at hfile; cases hfile
  · rw [h] at hup; simp [jsonMessage] at hup
  · rw [hr] at hup; simp [jsonMessage] at hup
  · rw [hr] at hup; simp [jsonMessage] at hup
  · rw [hfile] at hfile2
    cases hfile2
    rw [hB] at hb
    cases hb
    have hfind : findFileByPk w2 dreq.fileId = some
        (uploadRecord w.nextFileId req file (ftpFilePath req.user.id fp file.filename)) := by
      rw [hid]
      exact findFileByPk_appended w hwf _ rfl w2 (hfiles.trans hfiles2)
    have hobj : w2.remoteObjs.lookup
        (uploadRecord w.nextFileId req file (ftpFilePath req.user.id fp file.filename)).ftp_path
        = some B := by
      rw [hobjs, hobjs2]
      simp [uploadRecord, List.lookup]
    have hperm2 : dreq.user.role = "admin" ∨
        (uploadRecord w.nextFileId req file (ftpFilePath req.user.id fp file.filename)).user_id
          = dreq.user.id := by
      rcases hperm with h | h
      · exact Or.inl h
      · exact Or.inr h.symm
    refine ⟨_, hfiles2, ⟨transferConn w.nextConn fp, ?_⟩, ?_⟩
    · rw [newEvents_append w _ _ hlog]
      simp [uploadRecord]
    · rw [download_ok env2 dreq w2 _ B hfind hperm2 hconn hrem hwrite hlost hstream hobj]
      simp [newEvents, unlink, World.emit, fetchDone, ftpDone, downloadHeaders]
  · rw [hr] at hup; simp [jsonMessage] at hup

/-- Witness of C6, the scenario of the spec: user 7 uploads the 1,024 bytes of
`report.pdf` and downloads record 1; the body is those bytes and
`Content-Length` is 1024. -/
theorem round_trip_witness :
    (downloadHandler Env.healthy reportDownload uploadedWorld).1.status = 200 ∧
    (downloadHandler Env.healthy reportDownload uploadedWorld).1.payload =
      Payload.stream pdfBytes ∧
    ("Content-Length", "1024") ∈
      (downloadHandler Env.healthy reportDownload uploadedWorld).1.headers := by
  obtain ⟨_, _, _, _, h1, h2, h3⟩ := round_trip Env.healthy Env.healthy reportUpload
    reportDownload stagedWorld uploadedWorld reportPdf pdfBytes
    (Reachable.init stagedWorld rfl rfl) rfl rfl (by decide) rfl rfl rfl (Or.inr rfl)
    rfl rfl rfl rfl rfl
  have hlen : toString pdfBytes.length = "1024" := by
    have h : pdfBytes.length = 1024 := List.length_replicate 1024 37
    rw [h]
    decide
  rw [hlen] at h3
  exact ⟨h1, h2, h3⟩

/-- Counterexample to C10 as stated.  The remote object of record 1 holds zero
bytes while the record says `file_size = 1024`.  The fetch completes and leaves
a temporary file of size 0; the handler does not compare sizes: it answers 200
with `Content-Length: 0` and an empty body. -/
theorem download_empty_fetch_streamed :
    (findFileByPk truncatedWorld 1).map (fun f => f.file_size) = some 1024 ∧
    (downloadFile Env.healthy "/users/7/report.pdf" "temp/download_1_0_report.pdf"
      truncatedWorld).1 = Except.ok "temp/download_1_0_report.pdf" ∧
    readLocal (downloadFile Env.healthy "/users/7/report.pdf" "temp/download_1_0_report.pdf"
      truncatedWorld).2 "temp/download_1_0_report.pdf" = some [] ∧
    (downloadHandler Env.healthy reportDownload truncatedWorld).1 =
      { status := 200,
        headers := [("Content-Type", "application/pdf"),
          ("Content-Disposition", "attachment; filename=\"report.pdf\""),
          ("Content-Length", "0")],
        payload := Payload.stream [] } :=
  ⟨by decide, rfl, by decide, by decide⟩

/-- C10, amended (empty-fetch check).  For a permitted download whose fetch
completes: if the temporary file is missing afterwards, the handler answers
500 with a JSON error, with no header set and no body byte sent; if the
temporary file is there, whatever its size and whatever `file_size` the record
has, the handler sets the headers with the size found on disk and streams the
contents (so an empty temporary file gives a 200 with `Content-Length: 0`). -/
theorem download_existence_check (env : Env) (req : DownloadRequest) (w w0 : World)
    (file : File) (x : String)
    (hfind : findFileByPk w req.fileId = some file)
    (hperm : req.user.role = "admin" ∨ file.user_id = req.user.id)
    (hfetch : downloadFile env file.ftp_path (tempPath req.param w.now file.filename) w =
      (Except.ok x, w0)) :
    (existsSync (interfere env (tempPath req.param w.now file.filename) w0)
        (tempPath req.param w.now file.filename) = false →
      (downloadHandler env req w).1 =
        { status := 500, headers := [],
          payload := Payload.json "Failed to download file from storage" [] }) ∧
    (∀ content, readLocal (interfere env (tempPath req.param w.now file.filename) w0)
        (tempPath req.param w.now file.filename) = some content →
      env.stream = StreamOutcome.ended →
      (downloadHandler env req w).1 =
        { status := 200, headers := downloadHeaders env file content.length,
          payload := Payload.stream content }) := by
  have hguard : (!(decide (req.user.role = "admin")) && decide (file.user_id ≠ req.user.id))
      = false := by
    rcases hperm with h | h <;> simp [h]
  constructor
  · intro hmissing
    have hread : readLocal (interfere env (tempPath req.param w.now file.filename) w0)
        (tempPath req.param w.now file.filename) = none := by
      simpa [existsSync, readLocal] using hmissing
    simp only [downloadHandler, hfind, hguard, hfetch, hread]
    simp [jsonMessage]
  · intro content hread hstream
    simp only [downloadHandler, hfind, hguard, hfetch, hread, hstream]
    simp

/-- Witness of C10 amended: the temporary file of user 7's download is removed
by another party right after the fetch; the answer is the 500 JSON error. -/
theorem download_existence_check_witness :
    (downloadHandler tempRemoved reportDownload uploadedWorld).1 =
      { status := 500, headers := [],
        payload := Payload.json "Failed to download file from storage" [] } :=
  (download_existence_check tempRemoved reportDownload uploadedWorld _
    (uploadRecord 1 reportUpload reportPdf "/users/7/report.pdf")
    "temp/download_1_0_report.pdf" (by decide) (Or.inr rfl) rfl).1 (by decide)

/-! ## Connections -/

/-- Counterexample to C8 as stated.  `getFileStream` on an existing object in
the healthy environment resolves with the stream and the client of connection
2; that connection is still open and no `client.end()` has been called. -/
theorem getFileStream_keeps_connection_open :
    (getFileStream Env.healthy "/users/7/report.pdf" uploadedWorld).1 =
      Except.ok (pdfBytes, 2) ∧
    uploadedWorld.nextConn = 2 ∧
    2 ∈ (getFileStream Env.healthy "/users/7/report.pdf" uploadedWorld).2.openConns ∧
    Event.clientEnd 2 ∉ newEvents uploadedWorld
      (getFileStream Env.healthy "/users/7/report.pdf" uploadedWorld).2 :=
  ⟨rfl, by decide, by decide, by decide⟩

/-- C8, amended (connection teardown).  Given a connected client (the
connection attempt of the operation succeeds), `uploadFile`, `listFiles`,
`createDirectory`, `deleteFile` and `downloadFile` have called `client.end()`
on the connection they opened when their promise settles, whether the remote
action succeeded or failed, and that connection is not open afterwards.
`getFileStream` does so when its `get` is rejected; when the `get` succeeds it
resolves with the stream and the client, and the connection is still open. -/
theorem connection_teardown (env : Env) (w : World) (l p : String)
    (hconn : env.connectOk w.nextConn = true) :
    (w.nextConn ∉ (uploadFile env l p w).2.openConns ∧
      Event.clientEnd w.nextConn ∈ newEvents w (uploadFile env l p w).2) ∧
    (w.nextConn ∉ (listFiles env p w).2.openConns ∧
      Event.clientEnd w.nextConn ∈ newEvents w (listFiles env p w).2) ∧
    (w.nextConn ∉ (createDirectory env p w).2.openConns ∧
      Event.clientEnd w.nextConn ∈ newEvents w (createDirectory env p w).2) ∧
    (w.nextConn ∉ (deleteFile env p w).2.openConns ∧
      Event.clientEnd w.nextConn ∈ newEvents w (deleteFile env p w).2) ∧
    (w.nextConn ∉ (downloadFile env p l w).2.openConns ∧
      Event.clientEnd w.nextConn ∈ newEvents w (downloadFile env p l w).2) ∧
    (∀ e, (getFileStream env p w).1 = Except.error e →
      w.nextConn ∉ (getFileStream env p w).2.openConns ∧
      Event.clientEnd w.nextConn ∈ newEvents w (getFileStream env p w).2) ∧
    (∀ b c, (getFileStream env p w).1 = Except.ok (b, c) →
      c = w.nextConn ∧ c ∈ (getFileStream env p w).2.openConns ∧
      Event.clientEnd c ∉ newEvents w (getFileStream env p w).2) := by
  refine ⟨?_, ?_, ?_, ?_, ?_, ?_, ?_⟩
  · cases h2 : env.remoteOk w.nextConn <;> cases h3 : w.localFs.lookup l <;>
      simp [uploadFile, connect, clientPut, clientEnd, World.emit, readLocal, newEvents,
        hconn, h2, h3]
  · cases h2 : env.remoteOk w.nextConn <;>
      simp [listFiles, connect, clientList, clientEnd, World.emit, newEvents, hconn, h2]
  · cases h2 : env.remoteOk w.nextConn <;>
      simp [createDirectory, connect, clientMkdir, clientEnd, World.emit, newEvents, hconn, h2]
  · cases h2 : env.remoteOk w.nextConn <;> cases h3 : w.remoteObjs.lookup p <;>
      simp [deleteFile, connect, clientDelete, clientEnd, World.emit, newEvents, hconn, h2, h3]
  · cases h2 : env.remoteOk w.nextConn <;> cases h3 : w.remoteObjs.lookup p <;>
      cases h4 : env.writeOk w.nextConn <;>
      simp [downloadFile, connect, clientGet, clientEnd, World.emit, writeLocal, unlink,
        newEvents, hconn, h2, h3, h4]
  · cases h2 : env.remoteOk w.nextConn <;> cases h3 : w.remoteObjs.lookup p <;>
      simp [getFileStream, connect, clientGet, clientEnd, World.emit, newEvents, hconn, h2, h3]
  · cases h2 : env.remoteOk w.nextConn <;> cases h3 : w.remoteObjs.lookup p <;>
      simp [getFileStream, connect, clientGet, clientEnd, World.emit, newEvents, hconn, h2, h3]

/-- Witness of C8 amended: in the healthy environment, after the upload of
`report.pdf`, each of the five operations ends connection 2. -/
theorem connection_teardown_witness :
    2 ∉ (uploadFile Env.healthy "uploads/x" "/users/7/report.pdf" uploadedWorld).2.openConns ∧
    2 ∉ (deleteFile Env.healthy "/users/7/report.pdf" uploadedWorld).2.openConns ∧
    2 ∉ (downloadFile Env.healthy "/users/7/report.pdf" "uploads/x" uploadedWorld).2.openConns :=
  have h := connection_teardown Env.healthy uploadedWorld "uploads/x" "/users/7/report.pdf" rfl
  ⟨h.1.1, h.2.2.2.1.1, h.2.2.2.2.1.1⟩

/-! ## Destruction of file records -/

/-- C9 (destruction order, failing input).  The administrator deletes user 7,
who owns file record 1 at `/users/7/report.pdf`.  The handler answers 200 and
destroys the record; the only call it makes is the destroy: no connection is
opened and no `deleteFile` is attempted, and the remote object is still in the
store.  The delete-file handler on the same record does attempt the remote
deletion first, and leaves the record in place when the server refuses it. -/
theorem deleteUser_skips_remote_deletion :
    uploadedWorld.files.map (fun f => (f.id, f.user_id, f.ftp_path)) =
      [(1, 7, "/users/7/report.pdf")] ∧
    (deleteUserHandler Env.healthy deleteUser7 uploadedWorld).1.status = 200 ∧
    (deleteUserHandler Env.healthy deleteUser7 uploadedWorld).2.files = [] ∧
    newEvents uploadedWorld (deleteUserHandler Env.healthy deleteUser7 uploadedWorld).2 =
      [Event.fileDestroy 1] ∧
    ((deleteUserHandler Env.healthy deleteUser7 uploadedWorld).2.remoteObjs.lookup
      "/users/7/report.pdf").isSome = true ∧
    newEvents uploadedWorld (deleteFileHandler Env.healthy 1 uploadedWorld).2 =
      [Event.connect 2 true, Event.delete 2 "/users/7/report.pdf" true, Event.clientEnd 2,
       Event.fileDestroy 1] ∧
    (deleteFileHandler serverRefuses 1 uploadedWorld).2.files = uploadedWorld.files := by
  decide

/-! ## Download: rejected fetch and authorization -/

theorem existsSync_cleanupTemp (p : String) (w : World) :
    existsSync (cleanupTemp p w) p = false := by
  unfold cleanupTemp
  by_cases h : existsSync w p = true
  · rw [if_pos h]
    show ((w.localFs.filter (fun e => e.1 ≠ p)).lookup p).isSome = false
    rw [lookup_filter_ne]
    rfl
  · rw [if_neg h]
    simpa using h

theorem cleanupTemp_log (p : String) (w : World) :
    ∃ rest, (cleanupTemp p w).log = w.log ++ rest := by
  unfold cleanupTemp
  split
  · exact ⟨[Event.unlink p], by simp [unlink, World.emit]⟩
  · exact ⟨[], by simp⟩

theorem downloadFile_rejected (env : Env) (rp lp : String) (w : World)
    (hconn : env.connectOk w.nextConn = true)
    (hget : w.remoteObjs.lookup rp = none ∨ env.remoteOk w.nextConn = false) :
    downloadFile env rp lp w =
      (Except.error (FtpError.remote rp), ftpDone (Event.get w.nextConn rp false) w) := by
  rcases hget with h | h
  · simp [downloadFile, connect, clientGet, clientEnd, World.emit, hconn, h, ftpDone]
  · cases h3 : w.remoteObjs.lookup rp <;>
      simp [downloadFile, connect, clientGet, clientEnd, World.emit, hconn, h, h3, ftpDone]

/-- C11 (download of a missing remote object).  For every permitted download
whose `get` on `file.ftp_path` is rejected (the object is not in the remote
store, or the server refuses the action), the handler answers 500 with the JSON
message `Failed to download file`; it has set no header (so neither
`Content-Disposition` nor `Content-Length`) and sent no body byte; the rejected
`get` is the logged remote action; and no file exists at the temporary path of
that download afterwards. -/
theorem download_missing_remote_object (env : Env) (req : DownloadRequest) (w : World)
    (file : File)
    (hfind : findFileByPk w req.fileId = some file)
    (hperm : req.user.role = "admin" ∨ file.user_id = req.user.id)
    (hconn : env.connectOk w.nextConn = true)
    (hget : w.remoteObjs.lookup file.ftp_path = none ∨ env.remoteOk w.nextConn = false) :
    (downloadHandler env req w).1 =
      { status := 500, headers := [], payload := Payload.json "Failed to download file" [] } ∧
    Event.get w.nextConn file.ftp_path false ∈ newEvents w (downloadHandler env req w).2 ∧
    (∀ c p, Event.get c p true ∉ newEvents w (downloadHandler env req w).2) ∧
    existsSync (downloadHandler env req w).2 (tempPath req.param w.now file.filename) = false := by
  have hguard : (!(decide (req.user.role = "admin")) && decide (file.user_id ≠ req.user.id))
      = false := by
    rcases hperm with h | h <;> simp [h]
  have hout : downloadHandler env req w =
      (jsonMessage 500 "Failed to download file",
        cleanupTemp (tempPath req.param w.now file.filename)
          (ftpDone (Event.get w.nextConn file.ftp_path false) w)) := by
    simp only [downloadHandler, hfind, hguard,
      downloadFile_rejected env file.ftp_path _ w hconn hget]
    simp
  rw [hout]
  refine ⟨by simp [jsonMessage], ?_, ?_, existsSync_cleanupTemp _ _ |>.trans ?_⟩
  · unfold cleanupTemp
    split <;> simp [newEvents, unlink, World.emit, ftpDone]
  · unfold cleanupTemp
    split <;> simp [newEvents, unlink, World.emit, ftpDone]
  · rfl

/-- Witness of C11: record 1 points at `/users/7/report.pdf`, which was deleted
out-of-band; user 7's download is answered with the JSON error and leaves no
temporary file. -/
theorem download_missing_remote_object_witness :
    (downloadHandler Env.healthy reportDownload orphanWorld).1 =
      { status := 500, headers := [], payload := Payload.json "Failed to download file" [] } ∧
    existsSync (downloadHandler Env.healthy reportDownload orphanWorld).2
      "temp/download_1_0_report.pdf" = false :=
  have h := download_missing_remote_object Env.healthy reportDownload orphanWorld
    (uploadRecord 1 reportUpload reportPdf "/users/7/report.pdf") (by decide) (Or.inr rfl) rfl
    (Or.inl (by decide))
  ⟨h.1, h.2.2.2⟩

/-- `downloadFile` always logs its connection attempt first and, once
connected, the `get` on the remote path. -/
theorem downloadFile_log (env : Env) (rp lp : String) (w : World) :
    ∃ rest, (downloadFile env rp lp w).2.log =
        w.log ++ Event.connect w.nextConn (env.connectOk w.nextConn) :: rest ∧
      (env.connectOk w.nextConn = true → ∃ ok rest2, rest = Event.get w.nextConn rp ok :: rest2) := by
  cases h1 : env.connectOk w.nextConn <;> cases h2 : env.remoteOk w.nextConn <;>
    cases h3 : w.remoteObjs.lookup rp <;> cases h4 : env.writeOk w.nextConn <;>
    simp [downloadFile, connect, clientGet, clientEnd, World.emit, writeLocal, unlink,
      h1, h2, h3, h4]

/-- Once the permission check has passed, the handler calls `downloadFile` and
answers 200 or 500; what it logs afterwards comes after the calls of the fetch. -/
theorem download_passed (env : Env) (req : DownloadRequest) (w : World) (file : File)
    (hfind : findFileByPk w req.fileId = some file)
    (hperm : req.user.role = "admin" ∨ file.user_id = req.user.id) :
    (∃ rest, (downloadHandler env req w).2.log =
      (downloadFile env file.ftp_path (tempPath req.param w.now file.filename) w).2.log ++ rest) ∧
    ((downloadHandler env req w).1.status = 200 ∨ (downloadHandler env req w).1.status = 500) := by
  have hguard : (!(decide (req.user.role = "admin")) && decide (file.user_id ≠ req.user.id))
      = false := by
    rcases hperm with h | h <;> simp [h]
  simp only [downloadHandler, hfind, hguard, Bool.false_eq_true, if_false]
  rcases hdl : downloadFile env file.ftp_path (tempPath req.param w.now file.filename) w
    with ⟨r, w1⟩
  cases r with
  | error e =>
    simp only
    exact ⟨cleanupTemp_log _ _, Or.inr (by simp [jsonMessage])⟩
  | ok x =>
    have hlog : (interfere env (tempPath req.param w.now file.filename) w1).log = w1.log := by
      unfold interfere
      split <;> rfl
    simp only
    cases hread : readLocal (interfere env (tempPath req.param w.now file.filename) w1)
      (tempPath req.param w.now file.filename) with
    | none => exact ⟨⟨[], by simp [hlog]⟩, Or.inr (by simp [jsonMessage])⟩
    | some content =>
      simp only
      cases env.stream with
      | ended =>
        exact ⟨⟨[Event.unlink (tempPath req.param w.now file.filename)],
          by simp [unlink, World.emit, hlog]⟩, Or.inl rfl⟩
      | error sent =>
        obtain ⟨rest, hrest⟩ := cleanupTemp_log (tempPath req.param w.now file.filename)
          (interfere env (tempPath req.param w.now file.filename) w1)
        by_cases hsent : sent = 0
        · simp only [hsent, ite_true]
          exact ⟨⟨rest, by rw [hrest, hlog]⟩, Or.inr trivial⟩
        · simp only [hsent, ite_false]
          exact ⟨⟨rest, by rw [hrest, hlog]⟩, Or.inl trivial⟩
      | aborted chunks =>
        by_cases hdrained : streamDrained content.length chunks = true
        · simp only [hdrained, ite_true]
          exact ⟨⟨[Event.unlink (tempPath req.param w.now file.filename)],
            by simp [unlink, World.emit, hlog]⟩, Or.inl trivial⟩
        · rw [Bool.not_eq_true] at hdrained
          simp only [hdrained, Bool.false_eq_true, ite_false]
          exact ⟨⟨[], by simp [hlog]⟩, Or.inl trivial⟩

/-- C14 (download authorization).  A request for a file id without a record is
answered 404 and changes nothing.  For an existing record: a requester who is
not an administrator and not the owner is answered 403 and nothing changes (no
call is logged, so no connection and no fetch, and the local disk is as it
was, so no temporary file); an administrator or the owner passes the check:
the handler calls `downloadFile`, which logs its connection attempt and, once
connected, the `get` on `file.ftp_path`, and the answer is neither 403 nor
404. -/
theorem download_authorization (env : Env) (req : DownloadRequest) (w : World) :
    (findFileByPk w req.fileId = none →
      downloadHandler env req w = (jsonMessage 404 "File not found", w)) ∧
    (∀ file, findFileByPk w req.fileId = some file →
      (req.user.role ≠ "admin" → file.user_id ≠ req.user.id →
        downloadHandler env req w =
          (jsonMessage 403 "You do not have permission to download this file", w)) ∧
      (req.user.role = "admin" ∨ file.user_id = req.user.id →
        Event.connect w.nextConn (env.connectOk w.nextConn) ∈
          newEvents w (downloadHandler env req w).2 ∧
        (env.connectOk w.nextConn = true →
          ∃ ok, Event.get w.nextConn file.ftp_path ok ∈
            newEvents w (downloadHandler env req w).2) ∧
        (downloadHandler env req w).1.status ≠ 403 ∧
        (downloadHandler env req w).1.status ≠ 404)) := by
  refine ⟨fun hnone => by simp [downloadHandler, hnone], fun file hfind => ⟨?_, ?_⟩⟩
  · intro hrole howner
    simp [downloadHandler, hfind, hrole, howner]
  · intro hperm
    obtain ⟨⟨rest, hlog⟩, hstatus⟩ := download_passed env req w file hfind hperm
    obtain ⟨rest1, hdl, hgetev⟩ := downloadFile_log env file.ftp_path
      (tempPath req.param w.now file.filename) w
    have hnew : newEvents w (downloadHandler env req w).2 =
        (Event.connect w.nextConn (env.connectOk w.nextConn) :: rest1) ++ rest :=
      newEvents_append w _ _ (by rw [hlog, hdl, List.append_assoc])
    rw [hnew]
    refine ⟨by simp, fun hconn => ?_, ?_, ?_⟩
    · obtain ⟨ok, rest2, hrest1⟩ := hgetev hconn
      exact ⟨ok, by simp [hrest1]⟩
    · rcases hstatus with h | h <;> simp [h]
    · rcases hstatus with h | h <;> simp [h]

/-- Witness of C14 on record 1 of user 7: user 8 is answered 403 and nothing is
logged; the administrator's request logs the `get`; file 99 is answered 404. -/
theorem download_authorization_witness :
    downloadHandler Env.healthy strangerDownload uploadedWorld =
      (jsonMessage 403 "You do not have permission to download this file", uploadedWorld) ∧
    (∃ ok, Event.get 2 "/users/7/report.pdf" ok ∈
      newEvents uploadedWorld (downloadHandler Env.healthy adminDownload uploadedWorld).2) ∧
    downloadHandler Env.healthy missingDownload uploadedWorld =
      (jsonMessage 404 "File not found", uploadedWorld) :=
  have h := download_authorization Env.healthy strangerDownload uploadedWorld
  have ha := download_authorization Env.healthy adminDownload uploadedWorld
  have hm := download_authorization Env.healthy missingDownload uploadedWorld
  ⟨(h.2 (uploadRecord 1 reportUpload reportPdf "/users/7/report.pdf") (by decide)).1
      (by decide) (by decide),
    ((ha.2 (uploadRecord 1 reportUpload reportPdf "/users/7/report.pdf") (by decide)).2
      (Or.inl rfl)).2.1 rfl,
    hm.1 (by decide)⟩

/-! ## Folder creation -/

theorem isQuiet_not_folderCreate (e : Event) (h : e.isQuiet = true) :
    ∀ p ok, e ≠ Event.folderCreate p ok := by
  intro p ok he
  subst he
  simp [Event.isQuiet] at h

/-- Every run of the create-folder handler is of one of four shapes: the
folder is stored after both directories were created; the insert is refused
after both directories were created; the request ends with 500 before
`Folder.create` is called; or the name is missing and nothing happens. -/
theorem createFolder_trace (env : Env) (req : CreateFolderRequest) (w : World) :
    ((createFolderHandler env req w).1.status = 201 ∧
      (createFolderHandler env req w).2.log = w.log ++ (folderProvision w.nextConn req ++
        [Event.folderCreate (folderRecord 0 req).ftp_path true]) ∧
      (createFolderHandler env req w).2.folders = w.folders ++ [folderRecord w.nextFolderId req])
    ∨ ((createFolderHandler env req w).1.status = 500 ∧
      (createFolderHandler env req w).2.log = w.log ++ (folderProvision w.nextConn req ++
        [Event.folderCreate (folderRecord 0 req).ftp_path false]) ∧
      (createFolderHandler env req w).2.folders = w.folders)
    ∨ ((createFolderHandler env req w).1.status = 500 ∧
      (∃ evs, (createFolderHandler env req w).2.log = w.log ++ evs ∧
        ∀ e ∈ evs, e.isQuiet = true) ∧
      (createFolderHandler env req w).2.folders = w.folders)
    ∨ (req.folderName = "" ∧
      createFolderHandler env req w = (jsonMessage 400 "Folder name required", w)) := by
  by_cases hname : req.folderName = ""
  · right; right; right
    exact ⟨hname, by simp [createFolderHandler, hname]⟩
  · rcases createDirectory_cases env ("/users/" ++ toString req.user.id) w with h1 | h1 | h1
    · right; right; left
      simp only [createFolderHandler, hname, ite_false, h1]
      exact ⟨rfl, ⟨[Event.connect w.nextConn false],
        by simp [connectFailed, Event.isQuiet]⟩, rfl⟩
    · right; right; left
      simp only [createFolderHandler, hname, ite_false, h1]
      exact ⟨rfl, ⟨_, rfl, by simp [Event.isQuiet]⟩, rfl⟩
    · rcases createDirectory_cases env ("/users/" ++ toString req.user.id ++ "/" ++ req.folderName)
        (mkdirDone ("/users/" ++ toString req.user.id) w) with h2 | h2 | h2
      · right; right; left
        simp only [createFolderHandler, hname, ite_false, h1, h2]
        refine ⟨rfl, ⟨(mkdirDone ("/users/" ++ toString req.user.id) w).log.drop
          w.log.length ++ [Event.connect (w.nextConn + 1) false], ?_, ?_⟩, rfl⟩ <;>
          simp [connectFailed, mkdirDone, ftpDone, Event.isQuiet]
      · right; right; left
        simp only [createFolderHandler, hname, ite_false, h1, h2]
        refine ⟨rfl, ⟨(mkdirDone ("/users/" ++ toString req.user.id) w).log.drop
          w.log.length ++ [Event.connect (w.nextConn + 1) true,
            Event.mkdir (w.nextConn + 1)
              ("/users/" ++ toString req.user.id ++ "/" ++ req.folderName) false,
            Event.clientEnd (w.nextConn + 1)], ?_, ?_⟩, rfl⟩ <;>
          simp [mkdirDone, ftpDone, Event.isQuiet]
      · cases hins : env.folderInsertOk w.nextFolderId
        · right; left
          simp only [createFolderHandler, hname, ite_false, h1, h2]
          simp [createFolder, hins, World.emit, ftpDone, mkdirDone, jsonMessage,
            folderProvision, folderRecord]
        · left
          simp only [createFolderHandler, hname, ite_false, h1, h2]
          simp [createFolder, hins, World.emit, ftpDone, mkdirDone, folderProvision,
            folderRecord]

theorem folderProvision_ok (c : Nat) (req : CreateFolderRequest) :
    ∀ e ∈ folderProvision c req, e.isRemoteFailure = false ∧ ∀ p ok, e ≠ Event.folderCreate p ok := by
  intro e he
  simp only [folderProvision, List.mem_cons, List.mem_singleton, List.not_mem_nil, or_false] at he
  rcases he with h | h | h | h | h | h <;> subst h <;> simp [Event.isRemoteFailure]

theorem findOneFolder_appended (w : World) (hw : WellFormed w) (r : Folder)
    (hr : r.id = w.nextFolderId) (w2 : World) (hfolders : w2.folders = w.folders ++ [r]) :
    findOneFolder w2 w.nextFolderId r.user_id = some r := by
  have hnone : w.folders.find?
      (fun f => decide (f.id = w.nextFolderId ∧ f.user_id = r.user_id)) = none := by
    rw [List.find?_eq_none]
    intro f hf
    have := hw.folderIds f hf
    simp only [decide_eq_true_eq, not_and]
    omega
  rw [findOneFolder, hfolders, List.find?_append, hnone]
  simp [hr]

/-- C12 (folder creation).  For every create-folder request: if it is answered
201, the calls of the request are, in this order, a successful
`createDirectory` of `/users/{u}`, a successful `createDirectory` of
`/users/{u}/{n}` and the insert of the folder record, and that record, with
`ftp_path = /users/{u}/{n}`, is the one change to the folder records; if a
remote step of the request was refused, no folder record is created,
`Folder.create` is not called and the answer is 500; whenever `Folder.create`
is called, both directory creations have succeeded before; and after a 201 in a
reachable world, an upload by `u` that names the new folder and is answered 201,
in any later world with the same folder records, stores a file record with
`ftp_path = /users/{u}/{n}/{s}` for the stored filename `s`. -/
theorem folder_creation (env : Env) (req : CreateFolderRequest) (w : World) :
    ((createFolderHandler env req w).1.status = 201 →
      newEvents w (createFolderHandler env req w).2 =
        [Event.connect w.nextConn true,
         Event.mkdir w.nextConn ("/users/" ++ toString req.user.id) true,
         Event.clientEnd w.nextConn,
         Event.connect (w.nextConn + 1) true,
         Event.mkdir (w.nextConn + 1)
           ("/users/" ++ toString req.user.id ++ "/" ++ req.folderName) true,
         Event.clientEnd (w.nextConn + 1),
         Event.folderCreate ("/users/" ++ toString req.user.id ++ "/" ++ req.folderName) true] ∧
      (createFolderHandler env req w).2.folders = w.folders ++
        [{ id := w.nextFolderId, user_id := req.user.id, folder_name := req.folderName,
           folder_path := "./uploads/" ++ toString req.user.id ++ "/" ++ req.folderName,
           ftp_path := "/users/" ++ toString req.user.id ++ "/" ++ req.folderName }]) ∧
    ((∃ e ∈ newEvents w (createFolderHandler env req w).2, e.isRemoteFailure = true) →
      (createFolderHandler env req w).2.folders = w.folders ∧
      (∀ p ok, Event.folderCreate p ok ∉ newEvents w (createFolderHandler env req w).2) ∧
      (createFolderHandler env req w).1.status = 500) ∧
    (∀ p ok, Event.folderCreate p ok ∈ newEvents w (createFolderHandler env req w).2 →
      p = "/users/" ++ toString req.user.id ++ "/" ++ req.folderName ∧
      newEvents w (createFolderHandler env req w).2 =
        folderProvision w.nextConn req ++ [Event.folderCreate p ok]) ∧
    (Reachable w → (createFolderHandler env req w).1.status = 201 →
      ∀ (env2 : Env) (upload : UploadRequest) (w2 : World) (file : StagedFile),
        w2.folders = (createFolderHandler env req w).2.folders →
        upload.user.id = req.user.id → upload.folderId = some w.nextFolderId →
        upload.file = some file → (uploadHandler env2 upload w2).1.status = 201 →
        ∃ r, (uploadHandler env2 upload w2).2.files = w2.files ++ [r] ∧
          r.folder_id = some w.nextFolderId ∧
          r.ftp_path = "/users/" ++ toString req.user.id ++ "/" ++ req.folderName ++ "/" ++
            file.filename) := by
  have hprov := folderProvision_ok w.nextConn req
  rcases createFolder_trace env req w with ⟨hst, hlog, hfolders⟩ | ⟨hst, hlog, hfolders⟩ |
    ⟨hst, ⟨evs, hlog, hq⟩, hfolders⟩ | ⟨_, hout⟩
  · rw [newEvents_append w _ _ hlog, hst, hfolders]
    refine ⟨fun _ => ⟨by simp [folderProvision, folderRecord], rfl⟩, fun h => ?_,
      fun p ok hmem => ?_, fun hw _ env2 upload w2 file hf2 hu hfid hfile hup => ?_⟩
    · exfalso
      obtain ⟨e, he, hfail⟩ := h
      rcases List.mem_append.1 he with he | he
      · simp [(hprov e he).1] at hfail
      · rw [List.mem_singleton.1 he] at hfail
        simp [Event.isRemoteFailure] at hfail
    · rcases List.mem_append.1 hmem with he | he
      · exact absurd rfl ((hprov _ he).2 p ok)
      · have := List.mem_singleton.1 he
        cases this
        exact ⟨rfl, rfl⟩
    · have hwf := reachable_wellFormed w hw
      have hfind : findOneFolder w2 w.nextFolderId req.user.id =
          some (folderRecord w.nextFolderId req) :=
        findOneFolder_appended w hwf (folderRecord w.nextFolderId req) rfl w2 hf2
      have hlookup : folderLookup w2 upload.folderId upload.user.id =
          some ("/users/" ++ toString req.user.id ++ "/" ++ req.folderName) := by
        simp [folderLookup, hfid, hu, hfind, folderRecord]
      have hne : ("/users/" ++ toString req.user.id ++ "/" ++ req.folderName) ≠ "" :=
        beginsWith_ne_empty _ req.user.id (beginsWith_append _ _)
      rcases upload_cases env2 upload w2 with ⟨hnone, _⟩ | ⟨_, _, _, h⟩ |
        ⟨_, _, _, _, _, hr, _⟩ | ⟨_, _, _, _, _, _, hr, _⟩ |
        ⟨file2, fp, b, hfile2, hfl, _, _, _, hfiles, _⟩ |
        ⟨_, _, _, _, _, hr, _⟩
      · rw [hnone] at hfile; cases hfile
      · rw [h] at hup; simp [jsonMessage] at hup
      · rw [hr] at hup; simp [jsonMessage] at hup
      · rw [hr] at hup; simp [jsonMessage] at hup
      · rw [hfile] at hfile2
        cases hfile2
        rw [hlookup] at hfl
        cases hfl
        exact ⟨_, hfiles, by simp [uploadRecord, hfid],
          by simp [uploadRecord, ftpFilePath, hne, hu]⟩
      · rw [hr] at hup; simp [jsonMessage] at hup
  · rw [newEvents_append w _ _ hlog, hst, hfolders]
    refine ⟨fun h => by simp at h, fun h => ?_, fun p ok hmem => ?_, fun _ h => by simp at h⟩
    · exfalso
      obtain ⟨e, he, hfail⟩ := h
      rcases List.mem_append.1 he with he | he
      · simp [(hprov e he).1] at hfail
      · rw [List.mem_singleton.1 he] at hfail
        simp [Event.isRemoteFailure] at hfail
    · rcases List.mem_append.1 hmem with he | he
      · exact absurd rfl ((hprov _ he).2 p ok)
      · have := List.mem_singleton.1 he
        cases this
        exact ⟨rfl, rfl⟩
  · rw [newEvents_append w _ _ hlog, hst, hfolders]
    exact ⟨fun h => by simp at h,
      fun _ => ⟨rfl, fun p ok hmem => isQuiet_not_folderCreate _ (hq _ hmem) p ok rfl, rfl⟩,
      fun p ok hmem => absurd rfl (isQuiet_not_folderCreate _ (hq _ hmem) p ok),
      fun _ h => by simp at h⟩
  · rw [hout]
    simp [newEvents, jsonMessage]

/-- Witness of C12, the scenario of the spec: user 7 creates `invoices`; the
folder record has `ftp_path` `/users/7/invoices`, the remote store holds the
directories, and the upload of `report.pdf` into the folder is stored at
`/users/7/invoices/report.pdf`; with the second `createDirectory` refused no
folder record is created. -/
theorem folder_creation_witness :
    (createFolderHandler Env.healthy invoicesFolder stagedWorld).2.folders.map
      (fun f => f.ftp_path) = ["/users/7/invoices"] ∧
    (createFolderHandler Env.healthy invoicesFolder stagedWorld).2.remoteDirs =
      ["/users", "/users/7", "/users/7/invoices"] ∧
    (∃ r, invoicesWorld.files = [r] ∧ r.ftp_path = "/users/7/invoices/report.pdf") ∧
    (createFolderHandler secondMkdirRefused invoicesFolder stagedWorld).2.folders = [] := by
  have h := folder_creation Env.healthy invoicesFolder stagedWorld
  have h2 := folder_creation secondMkdirRefused invoicesFolder stagedWorld
  obtain ⟨r, hr, _, hp⟩ := h.2.2.2 (Reachable.init stagedWorld rfl rfl) (by decide) Env.healthy
    folderUpload (createFolderHandler Env.healthy invoicesFolder stagedWorld).2 reportPdf rfl rfl
    rfl rfl (by decide)
  refine ⟨by decide, by decide, ⟨r, ?_, ?_⟩, ?_⟩
  · have hnil : (createFolderHandler Env.healthy invoicesFolder stagedWorld).2.files = [] := by
      decide
    rw [hnil] at hr
    exact hr
  · rw [hp]; decide
  · exact (h2.2.1 ⟨Event.mkdir 1 "/users/7/invoices" false, by decide, rfl⟩).1

/-! ## Directory provisioning -/

theorem mem_addDir (dirs : List String) (d x : String) :
    x ∈ addDir dirs d ↔ x ∈ dirs ∨ x = d := by
  unfold addDir
  split
  · constructor
    · exact Or.inl
    · rintro (h | h)
      · exact h
      · subst h; assumption
  · simp

theorem nodup_addDir (dirs : List String) (d : String) (h : dirs.Nodup) :
    (addDir dirs d).Nodup := by
  unfold addDir
  split
  · exact h
  · rename_i hd
    rw [List.nodup_append]
    exact ⟨h, List.nodup_singleton d, fun x hx hx2 => hd (List.mem_singleton.1 hx2 ▸ hx)⟩

theorem mem_foldl_addDir (l dirs : List String) (x : String) :
    x ∈ l.foldl addDir dirs ↔ x ∈ dirs ∨ x ∈ l := by
  induction l generalizing dirs with
  | nil => simp
  | cons d l ih =>
    rw [List.foldl_cons, ih, mem_addDir, List.mem_cons]
    tauto

theorem nodup_foldl_addDir (l dirs : List String) (h : dirs.Nodup) :
    (l.foldl addDir dirs).Nodup := by
  induction l generalizing dirs with
  | nil => exact h
  | cons d l ih => exact ih _ (nodup_addDir dirs d h)

/-- Adding directories that are all present changes nothing. -/
theorem foldl_addDir_present (l dirs : List String) (h : ∀ x ∈ l, x ∈ dirs) :
    l.foldl addDir dirs = dirs := by
  induction l with
  | nil => rfl
  | cons d l ih =>
    have hd : d ∈ dirs := h d (List.mem_cons_self d l)
    rw [List.foldl_cons]
    have : addDir dirs d = dirs := by simp [addDir, hd]
    rw [this]
    exact ih (fun x hx => h x (List.mem_cons_of_mem d hx))

theorem createDirectory_ok (env : Env) (p : String) (w : World)
    (hconn : env.connectOk w.nextConn = true) (hrem : env.remoteOk w.nextConn = true) :
    createDirectory env p w = (Except.ok p, mkdirDone p w) := by
  simp [createDirectory, connect, clientMkdir, clientEnd, World.emit, hconn, hrem, mkdirDone,
    ftpDone]

/-- C15 (idempotent directory provisioning).  The directories of the remote
store form a set (a list without repetition) and the server accepts the two
connections and the two `mkdir` actions.  Then `createDirectory(P)` resolves
with `P` on the first call and again on a second call made right after it; the
directories after the second call are those after the first, the remote objects
are untouched, the directories still form a set, and each segment that `mkdir`
provisions for `P` (the path and its ancestors) is present exactly once. -/
theorem createDirectory_idempotent (env : Env) (p : String) (w : World)
    (hc1 : env.connectOk w.nextConn = true) (hr1 : env.remoteOk w.nextConn = true)
    (hc2 : env.connectOk (w.nextConn + 1) = true) (hr2 : env.remoteOk (w.nextConn + 1) = true)
    (hset : w.remoteDirs.Nodup) :
    (createDirectory env p w).1 = Except.ok p ∧
    (createDirectory env p (createDirectory env p w).2).1 = Except.ok p ∧
    (createDirectory env p (createDirectory env p w).2).2.remoteDirs =
      (createDirectory env p w).2.remoteDirs ∧
    (createDirectory env p (createDirectory env p w).2).2.remoteObjs = w.remoteObjs ∧
    (createDirectory env p (createDirectory env p w).2).2.remoteDirs.Nodup ∧
    (∀ d ∈ ancestors p,
      (createDirectory env p (createDirectory env p w).2).2.remoteDirs.count d = 1) := by
  have h1 := createDirectory_ok env p w hc1 hr1
  have h2 := createDirectory_ok env p (mkdirDone p w)
    (by simpa [mkdirDone, ftpDone] using hc2) (by simpa [mkdirDone, ftpDone] using hr2)
  rw [h1]
  simp only
  rw [h2]
  have hdirs : (mkdirDone p (mkdirDone p w)).remoteDirs = (mkdirDone p w).remoteDirs := by
    show (ancestors p).foldl addDir ((ancestors p).foldl addDir w.remoteDirs) =
      (ancestors p).foldl addDir w.remoteDirs
    exact foldl_addDir_present _ _ (fun x hx => (mem_foldl_addDir _ _ x).2 (Or.inr hx))
  have hnodup : (mkdirDone p w).remoteDirs.Nodup := nodup_foldl_addDir _ _ hset
  refine ⟨?_, ?_, hdirs, ?_, hdirs ▸ hnodup, fun d hd => ?_⟩
  · trivial
  · trivial
  · rfl
  rw [hdirs]
  exact List.count_eq_one_of_mem hnodup ((mem_foldl_addDir _ _ d).2 (Or.inr hd))

/-- Witness of C15: `createDirectory("/users/7/invoices")` twice in a fresh
deployment; both calls resolve and the store holds `/users`, `/users/7` and
`/users/7/invoices` once each. -/
theorem createDirectory_idempotent_witness :
    (createDirectory Env.healthy "/users/7/invoices"
      (createDirectory Env.healthy "/users/7/invoices" stagedWorld).2).1 =
      Except.ok "/users/7/invoices" ∧
    (createDirectory Env.healthy "/users/7/invoices"
      (createDirectory Env.healthy "/users/7/invoices" stagedWorld).2).2.remoteDirs =
      ["/users", "/users/7", "/users/7/invoices"] ∧
    (createDirectory Env.healthy "/users/7/invoices"
      (createDirectory Env.healthy "/users/7/invoices" stagedWorld).2).2.remoteDirs.count
      "/users/7/invoices" = 1 :=
  have h := createDirectory_idempotent Env.healthy "/users/7/invoices" stagedWorld rfl rfl rfl
    rfl (by decide)
  ⟨h.2.1, by decide, h.2.2.2.2.2 "/users/7/invoices" (by decide)⟩

/-! ## Deletion of users -/

theorem filter_id_ne_of_not_mem (l : List User) (t : Nat)
    (h : t ∉ l.map (fun u => u.id)) : l.filter (fun u => u.id ≠ t) = l := by
  rw [List.filter_eq_self]
  intro u hu
  have : u.id ≠ t := fun he => h (he ▸ List.mem_map_of_mem (fun u => u.id) hu)
  simpa using this

/-- With unique ids, removing the rows with id `t` removes at most one
administrator. -/
theorem admins_filter_le (l : List User) (t : Nat) (hkeys : (l.map (fun u => u.id)).Nodup) :
    (l.filter (fun u => u.role = "admin")).length ≤
      ((l.filter (fun u => u.id ≠ t)).filter (fun u => u.role = "admin")).length + 1 := by
  induction l with
  | nil => simp
  | cons u l ih =>
    rw [List.map_cons, List.nodup_cons] at hkeys
    by_cases hu : u.id = t
    · have hl : l.filter (fun u => u.id ≠ t) = l :=
        filter_id_ne_of_not_mem l t (hu ▸ hkeys.1)
      have h1 : (u :: l).filter (fun u => u.id ≠ t) = l := by
        rw [List.filter_cons, if_neg (by simp [hu])]
        exact hl
      rw [h1]
      by_cases ha : u.role = "admin"
      · simp [List.filter_cons, ha]
      · simp [List.filter_cons, ha]
    · have h1 : (u :: l).filter (fun u => u.id ≠ t) = u :: l.filter (fun u => u.id ≠ t) := by
        rw [List.filter_cons]
        simp [hu]
      rw [h1]
      have := ih hkeys.2
      by_cases ha : u.role = "admin"
      · simp only [List.filter_cons, ha, decide_True, ite_true, List.length_cons]
        omega
      · simp only [List.filter_cons, ha, decide_False]
        simpa using this

/-- With unique ids, removing the rows with the id of a user who is not an
administrator removes no administrator. -/
theorem admins_filter_eq (l : List User) (t : Nat) (target : User)
    (hkeys : (l.map (fun u => u.id)).Nodup)
    (hfind : l.find? (fun u => u.id = t) = some target) (hrole : target.role ≠ "admin") :
    (l.filter (fun u => u.id ≠ t)).filter (fun u => u.role = "admin") =
      l.filter (fun u => u.role = "admin") := by
  have hmem := List.mem_of_find?_eq_some hfind
  have hid : target.id = t := by simpa using List.find?_some hfind
  rw [List.filter_filter]
  apply List.filter_congr
  intro u hu
  by_cases ha : u.role = "admin"
  · have hne : u.id ≠ t := by
      intro he
      have : u = target :=
        List.inj_on_of_nodup_map hkeys hu hmem (he.trans hid.symm)
      exact hrole (this ▸ ha)
    simp [ha, hne]
  · simp [ha]

/-- C16 (admin preservation on user deletion).  Let the user table have unique
ids and hold at least one administrator.  After any delete-user request, in any
environment, it still holds at least one administrator.  A requester whose role
is not `admin` is answered 403; an administrator who targets the own id is
answered 400; an administrator who targets an administrator while the table
holds exactly one is answered 400; and in each of these cases the world is
returned as it was, so no user, file or folder record is deleted. -/
theorem delete_user_keeps_admin (env : Env) (req : DeleteUserRequest) (w : World)
    (hadmin : 1 ≤ adminCount w) (hkeys : (w.users.map (fun u => u.id)).Nodup) :
    1 ≤ adminCount (deleteUserHandler env req w).2 ∧
    (req.user.role ≠ "admin" →
      deleteUserHandler env req w = (jsonMessage 403 "Admin access required", w)) ∧
    (req.user.role = "admin" → req.userId = some req.user.id →
      deleteUserHandler env req w = (jsonMessage 400 "You cannot delete your own account", w)) ∧
    (∀ t target, req.user.role = "admin" → req.userId = some t → t ≠ req.user.id →
      findUserByPk w t = some target → target.role = "admin" → adminCount w = 1 →
      deleteUserHandler env req w = (jsonMessage 400 "Cannot delete the last admin user", w)) := by
  refine ⟨?_, fun h => by simp [deleteUserHandler, h], fun h1 h2 => by
    simp [deleteUserHandler, h1, h2], fun t target h1 h2 h3 h4 h5 h6 => by
    simp [deleteUserHandler, h1, h2, h3, h4, h5, h6]⟩
  unfold deleteUserHandler
  split
  · exact hadmin
  · split
    · exact hadmin
    · rename_i userId _
      split
      · exact hadmin
      · split
        · exact hadmin
        · rename_i target hfind
          split
          · exact hadmin
          · rename_i hlast
            split
            · show 1 ≤ ((w.users.filter (fun u => u.id ≠ userId)).filter
                (fun u => u.role = "admin")).length
              by_cases hrole : target.role = "admin"
              · have hle := admins_filter_le w.users userId hkeys
                have hne : adminCount w ≠ 1 := fun h => hlast ⟨hrole, h⟩
                unfold adminCount at hadmin hne
                omega
              · rw [admins_filter_eq w.users userId target hkeys hfind hrole]
                exact hadmin
            · exact hadmin

/-- Witness of C16: with administrators 1 and 2 in the table, administrator 2
deletes administrator 1 and one administrator is left; user 7 is answered 403,
and with a single administrator the deletion of the own account is answered
400, the tables being untouched in both cases. -/
theorem delete_user_keeps_admin_witness :
    (deleteUserHandler Env.healthy deleteAdmin1 twoAdminsWorld).1.status = 200 ∧
    adminCount (deleteUserHandler Env.healthy deleteAdmin1 twoAdminsWorld).2 = 1 ∧
    1 ≤ adminCount (deleteUserHandler Env.healthy deleteAdmin1 twoAdminsWorld).2 ∧
    deleteUserHandler Env.healthy deleteByUser7 uploadedWorld =
      (jsonMessage 403 "Admin access required", uploadedWorld) ∧
    deleteUserHandler Env.healthy deleteSelf uploadedWorld =
      (jsonMessage 400 "You cannot delete your own account", uploadedWorld) :=
  have h := delete_user_keeps_admin Env.healthy deleteAdmin1 twoAdminsWorld (by decide)
    (by decide)
  have h7 := delete_user_keeps_admin Env.healthy deleteByUser7 uploadedWorld (by decide)
    (by decide)
  have hs := delete_user_keeps_admin Env.healthy deleteSelf uploadedWorld (by decide)
    (by decide)
  ⟨by decide, by decide, h.1, h7.2.1 (by decide), hs.2.2.1 rfl rfl⟩

/-! ## Temporary paths -/

theorem digitChar_value : ∀ m, m < 10 → (Nat.digitChar m).toNat - 48 = m := by
  decide

theorem digitChar_ne_underscore : ∀ m, m < 10 → Nat.digitChar m ≠ '_' := by
  decide

theorem digitsValue_toDigitsCore (fuel : Nat) :
    ∀ n ds, n < fuel → digitsValue 0 (Nat.toDigitsCore 10 fuel n ds) = digitsValue n ds := by
  induction fuel with
  | zero => intro n ds h; omega
  | succ fuel ih =>
    intro n ds h
    simp only [Nat.toDigitsCore]
    have hd := digitChar_value (n % 10) (Nat.mod_lt n (by decide))
    split
    · rename_i h0
      have hn : n % 10 = n := by omega
      rw [hn] at hd
      simp only [digitsValue, List.foldl_cons, hn, hd, Nat.zero_mul, Nat.zero_add]
    · rename_i h0
      rw [ih (n / 10) _ (by omega)]
      simp only [digitsValue, List.foldl_cons, hd]
      congr 1
      omega

theorem toString_nat_injective (a b : Nat) (h : toString a = toString b) : a = b := by
  have h2 : Nat.toDigits 10 a = Nat.toDigits 10 b := by
    have := congrArg String.data h
    simpa [toString, Nat.repr, List.asString] using this
  have ha := digitsValue_toDigitsCore (a + 1) a [] (Nat.lt_succ_self a)
  have hb := digitsValue_toDigitsCore (b + 1) b [] (Nat.lt_succ_self b)
  simp only [digitsValue, List.foldl_nil] at ha hb
  unfold Nat.toDigits at h2
  rw [← ha, ← hb, h2]

theorem toDigitsCore_no_underscore (fuel : Nat) :
    ∀ n ds, (∀ c ∈ ds, c ≠ '_') → ∀ c ∈ Nat.toDigitsCore 10 fuel n ds, c ≠ '_' := by
  induction fuel with
  | zero => intro n ds h; simpa [Nat.toDigitsCore] using h
  | succ fuel ih =>
    intro n ds h
    simp only [Nat.toDigitsCore]
    have hd := digitChar_ne_underscore (n % 10) (Nat.mod_lt n (by decide))
    have h2 : ∀ c ∈ Nat.digitChar (n % 10) :: ds, c ≠ '_' := by
      intro c hc
      rcases List.mem_cons.1 hc with hc | hc
      · rw [hc]; exact hd
      · exact h c hc
    split
    · exact h2
    · exact ih _ _ h2

theorem toString_nat_no_underscore (a : Nat) : '_' ∉ (toString a).data := by
  intro h
  have : '_' ∈ Nat.toDigits 10 a := by
    simpa [toString, Nat.repr, List.asString] using h
  exact toDigitsCore_no_underscore (a + 1) a [] (by simp) '_' this rfl

theorem append_sep_inj (l1 l2 r1 r2 : List Char) (c : Char) (h1 : c ∉ l1) (h2 : c ∉ l2)
    (h : l1 ++ c :: r1 = l2 ++ c :: r2) : l1 = l2 ∧ r1 = r2 := by
  induction l1 generalizing l2 with
  | nil =>
    cases l2 with
    | nil => simpa using h
    | cons x l2 =>
      simp only [List.nil_append, List.cons_append, List.cons.injEq] at h
      exact absurd (h.1 ▸ List.mem_cons_self x l2) h2
  | cons y l1 ih =>
    cases l2 with
    | nil =>
      simp only [List.nil_append, List.cons_append, List.cons.injEq] at h
      exact absurd (h.1 ▸ List.mem_cons_self y l1) h1
    | cons x l2 =>
      simp only [List.cons_append, List.cons.injEq] at h
      obtain ⟨h3, h4⟩ := ih l2 (fun hc => h1 (List.mem_cons_of_mem y hc))
        (fun hc => h2 (List.mem_cons_of_mem x hc)) h.2
      exact ⟨by rw [h.1, h3], h4⟩

theorem digitChar_ne_slash : ∀ m, m < 10 → Nat.digitChar m ≠ '/' := by
  decide

theorem toDigitsCore_no_slash (fuel : Nat) :
    ∀ n ds, (∀ c ∈ ds, c ≠ '/') → ∀ c ∈ Nat.toDigitsCore 10 fuel n ds, c ≠ '/' := by
  induction fuel with
  | zero => intro n ds h; simpa [Nat.toDigitsCore] using h
  | succ fuel ih =>
    intro n ds h
    simp only [Nat.toDigitsCore]
    have hd := digitChar_ne_slash (n % 10) (Nat.mod_lt n (by decide))
    have h2 : ∀ c ∈ Nat.digitChar (n % 10) :: ds, c ≠ '/' := by
      intro c hc
      rcases List.mem_cons.1 hc with hc | hc
      · rw [hc]; exact hd
      · exact h c hc
    split
    · exact h2
    · exact ih _ _ h2

theorem toString_nat_no_slash (a : Nat) : '/' ∉ (toString a).data := by
  intro h
  have : '/' ∈ Nat.toDigits 10 a := by
    simpa [toString, Nat.repr, List.asString] using h
  exact toDigitsCore_no_slash (a + 1) a [] (by simp) '/' this rfl

theorem segments_no_sep (l cur : List Char) (h : '/' ∉ l) :
    segments l cur = [cur.reverse ++ l] := by
  induction l generalizing cur with
  | nil => simp [segments]
  | cons c l ih =>
    have hc : c ≠ '/' := fun he => h (he ▸ List.mem_cons_self c l)
    have hl : '/' ∉ l := fun hm => h (List.mem_cons_of_mem c hm)
    simp only [segments, hc, ite_false]
    rw [ih (c :: cur) hl]
    simp

/-- The characters of the name of a temporary file. -/
theorem tempName_data (p : String) (now : Nat) (f : String) :
    ("download_" ++ p ++ "_" ++ toString now ++ "_" ++ f).data =
      'd' :: ("ownload_".data ++ p.data ++ '_' :: (toString now).data ++ '_' :: f.data) := by
  simp [String.data_append]

/-- `path.join` leaves a name alone that contains no `/` and begins with a
letter. -/
theorem pathJoin_plain (name : String) (rest : List Char) (hrest : name.data = 'd' :: rest)
    (hnosep : '/' ∉ name.data) : pathJoin "temp" name = "temp/" ++ name := by
  have hdata : ("temp" ++ "/" ++ name).data = 't' :: 'e' :: 'm' :: 'p' :: '/' :: name.data := by
    simp [String.data_append]
  have hsegs : segments ("temp" ++ "/" ++ name).data [] = ["temp".data, name.data] := by
    rw [hdata]
    simp only [segments, Char.reduceEq, ite_false, ite_true, List.reverse_cons, List.reverse_nil,
      List.nil_append, List.cons_append]
    rw [segments_no_sep _ _ hnosep]
    simp
  have hlast : ("temp" ++ "/" ++ name).data.getLast? ≠ some '/' := by
    intro hl
    have : ("temp" ++ "/" ++ name).data = ("temp" ++ "/").data ++ name.data := by
      simp [String.data_append]
    rw [this, hrest, List.getLast?_append_cons] at hl
    have hmem := List.mem_of_getLast?_eq_some hl
    rw [← hrest] at hmem
    exact hnosep hmem
  have hhead : ("temp" ++ "/" ++ name).data.head? = some 't' := by
    rw [hdata]; rfl
  unfold pathJoin normalize
  simp only [hsegs, hhead, hlast]
  apply String.ext
  rw [hrest]
  simp [pushSegment, joinSegments, String.data_append, hrest]

/-- When neither the parameter text nor the stored filename contains `/`,
`path.join` leaves the name of the temporary file as it is. -/
theorem tempPath_plain (p : String) (now : Nat) (f : String)
    (hp : '/' ∉ p.data) (hf : '/' ∉ f.data) :
    tempPath p now f = "temp/" ++ ("download_" ++ p ++ "_" ++ toString now ++ "_" ++ f) := by
  have hname := tempName_data p now f
  have hnosep : '/' ∉ ("download_" ++ p ++ "_" ++ toString now ++ "_" ++ f).data := by
    rw [hname]
    have hn := toString_nat_no_slash now
    simp only [List.mem_cons, List.mem_append, not_or]
    refine ⟨by decide, ⟨⟨?_, hp⟩, by decide, hn⟩, by decide, hf⟩
    decide
  exact pathJoin_plain _ _ hname hnosep

theorem tempPath_data (p : String) (now : Nat) (f : String)
    (hp : '/' ∉ p.data) (hf : '/' ∉ f.data) :
    (tempPath p now f).data =
      "temp/download_".data ++ (p.data ++ '_' :: ((toString now).data ++ '_' :: f.data)) := by
  rw [tempPath_plain p now f hp hf]
  simp [String.data_append]

/-- Two downloads through the same parameter text share their temporary path
exactly when they start in the same millisecond and have the same stored
filename. -/
theorem tempPath_same_param (p : String) (t1 t2 : Nat) (f1 f2 : String)
    (hp : '/' ∉ p.data) (hf1 : '/' ∉ f1.data) (hf2 : '/' ∉ f2.data) :
    tempPath p t1 f1 = tempPath p t2 f2 ↔ t1 = t2 ∧ f1 = f2 := by
  constructor
  · intro h
    have hd := congrArg String.data h
    rw [tempPath_data p t1 f1 hp hf1, tempPath_data p t2 f2 hp hf2] at hd
    have hd2 := List.append_cancel_left (List.append_cancel_left hd)
    have hd3 : (toString t1).data ++ '_' :: f1.data = (toString t2).data ++ '_' :: f2.data := by
      simpa using hd2
    obtain ⟨ht, hn⟩ := append_sep_inj _ _ _ _ '_' (toString_nat_no_underscore t1)
      (toString_nat_no_underscore t2) hd3
    exact ⟨toString_nat_injective _ _ (String.ext ht), String.ext hn⟩
  · rintro ⟨rfl, rfl⟩
    rfl

/-- For parameter texts without `_`, the temporary path determines the
parameter text, the millisecond and the stored filename. -/
theorem tempPath_inj (p1 p2 : String) (t1 t2 : Nat) (f1 f2 : String)
    (hp1 : '/' ∉ p1.data) (hp2 : '/' ∉ p2.data) (hu1 : '_' ∉ p1.data) (hu2 : '_' ∉ p2.data)
    (hf1 : '/' ∉ f1.data) (hf2 : '/' ∉ f2.data) :
    tempPath p1 t1 f1 = tempPath p2 t2 f2 ↔ p1 = p2 ∧ t1 = t2 ∧ f1 = f2 := by
  constructor
  · intro h
    have hd := congrArg String.data h
    rw [tempPath_data p1 t1 f1 hp1 hf1, tempPath_data p2 t2 f2 hp2 hf2] at hd
    have hd2 := List.append_cancel_left hd
    obtain ⟨hp, hrest⟩ := append_sep_inj _ _ _ _ '_' hu1 hu2 hd2
    obtain ⟨ht, hn⟩ := append_sep_inj _ _ _ _ '_' (toString_nat_no_underscore t1)
      (toString_nat_no_underscore t2) hrest
    exact ⟨String.ext hp, toString_nat_injective _ _ (String.ext ht), String.ext hn⟩
  · rintro ⟨rfl, rfl, rfl⟩
    rfl

theorem interfere_log (env : Env) (p : String) (w : World) : (interfere env p w).log = w.log := by
  unfold interfere
  split <;> rfl

theorem cleanupTemp_events (p : String) (w0 w : World) (evs : List Event)
    (h : w.log = w0.log ++ evs) :
    newEvents w0 (cleanupTemp p w) = evs ∨ newEvents w0 (cleanupTemp p w) = evs ++ [Event.unlink p] := by
  unfold cleanupTemp
  split
  · right
    exact newEvents_append w0 _ _ (by simp [unlink, World.emit, h])
  · left
    exact newEvents_append w0 _ _ h

/-- The only local path a permitted download unlinks is
`tempPath param now filename`, for the parameter text of the request, the
clock at the start of the request and the stored filename of the record. -/
theorem download_unlink_path (env : Env) (req : DownloadRequest) (w : World) (file : File)
    (hfind : findFileByPk w req.fileId = some file)
    (hperm : req.user.role = "admin" ∨ file.user_id = req.user.id) :
    ∀ p, Event.unlink p ∈ newEvents w (downloadHandler env req w).2 →
      p = tempPath req.param w.now file.filename := by
  have hguard : (!(decide (req.user.role = "admin")) && decide (file.user_id ≠ req.user.id))
      = false := by
    rcases hperm with h | h <;> simp [h]
  intro p
  simp only [downloadHandler, hfind, hguard, Bool.false_eq_true, if_false]
  rcases downloadFile_cases env file.ftp_path (tempPath req.param w.now file.filename) w
    with h | h | ⟨b, _, h⟩ | h
  · simp only [h]
    rcases cleanupTemp_events (tempPath req.param w.now file.filename) w (connectFailed w)
      [Event.connect w.nextConn false] rfl with h2 | h2 <;> rw [h2] <;> simp
  · simp only [h]
    rcases cleanupTemp_events (tempPath req.param w.now file.filename) w
      (ftpDone (Event.get w.nextConn file.ftp_path false) w) _ rfl with h2 | h2 <;>
      rw [h2] <;> simp
  · simp only [h]
    have hlog : (interfere env (tempPath req.param w.now file.filename)
        (fetchDone file.ftp_path (tempPath req.param w.now file.filename) b w)).log =
        w.log ++ [Event.connect w.nextConn true, Event.get w.nextConn file.ftp_path true,
          Event.clientEnd w.nextConn] := by
      rw [interfere_log]
      rfl
    cases hread : readLocal (interfere env (tempPath req.param w.now file.filename)
      (fetchDone file.ftp_path (tempPath req.param w.now file.filename) b w))
      (tempPath req.param w.now file.filename) with
    | none =>
      simp only
      rw [newEvents_append w _ _ hlog]
      simp
    | some content =>
      simp only
      have hlog2 : (unlink (tempPath req.param w.now file.filename)
          (interfere env (tempPath req.param w.now file.filename)
            (fetchDone file.ftp_path (tempPath req.param w.now file.filename) b w))).log =
          w.log ++ [Event.connect w.nextConn true, Event.get w.nextConn file.ftp_path true,
            Event.clientEnd w.nextConn, Event.unlink (tempPath req.param w.now file.filename)] := by
        simp only [unlink, World.emit, hlog, List.append_assoc, List.cons_append,
          List.nil_append]
      cases env.stream with
      | ended =>
        simp only
        rw [newEvents_append w _ _ hlog2]
        simp
      | error sent =>
        by_cases hsent : sent = 0
        · simp only [hsent, ite_true]
          rcases cleanupTemp_events (tempPath req.param w.now file.filename) w _ _ hlog
            with h2 | h2 <;> rw [h2] <;> simp
        · simp only [hsent, ite_false]
          rcases cleanupTemp_events (tempPath req.param w.now file.filename) w _ _ hlog
            with h2 | h2 <;> rw [h2] <;> simp
      | aborted chunks =>
        by_cases hdrained : streamDrained content.length chunks = true
        · simp only [hdrained, ite_true]
          rw [newEvents_append w _ _ hlog2]
          simp
        · rw [Bool.not_eq_true] at hdrained
          simp only [hdrained, Bool.false_eq_true, ite_false]
          rw [newEvents_append w _ _ hlog]
          simp
  · simp only [h]
    rcases cleanupTemp_events (tempPath req.param w.now file.filename) w
      (fetchWriteFailed file.ftp_path (tempPath req.param w.now file.filename) w) _ rfl
      with h2 | h2 <;> rw [h2] <;> simp

/-! ## Temporary files of aborted and concurrent downloads -/

/-- C5 (temp-file cleanup, the failing run).  A permitted download fetches the
remote object into its temporary file, and the client closes the response
before the read stream has handed over the whole file: before its first chunk,
or, for a file of more than one chunk, before the last one.  The read stream is
unpiped and emits neither `end` nor `error`, and the handler listens to nothing
else: the calls of the request are those of the fetch alone, no `unlink` is
issued, and the temporary file is still on the local disk, with the fetched
bytes, when the exchange is over. -/
theorem download_abort_leaves_temp_file (env : Env) (req : DownloadRequest) (w : World)
    (file : File) (b : Bytes) (chunks : Nat)
    (hfind : findFileByPk w req.fileId = some file)
    (hperm : req.user.role = "admin" ∨ file.user_id = req.user.id)
    (hconn : env.connectOk w.nextConn = true) (hrem : env.remoteOk w.nextConn = true)
    (hwrite : env.writeOk w.nextConn = true) (hlost : env.tempLost = false)
    (hobj : w.remoteObjs.lookup file.ftp_path = some b)
    (hstream : env.stream = StreamOutcome.aborted chunks)
    (hearly : chunks = 0 ∨ chunks * readChunkSize < b.length) :
    existsSync (downloadHandler env req w).2 (tempPath req.param w.now file.filename) = true ∧
    readLocal (downloadHandler env req w).2 (tempPath req.param w.now file.filename) = some b ∧
    newEvents w (downloadHandler env req w).2 =
      [Event.connect w.nextConn true, Event.get w.nextConn file.ftp_path true,
       Event.clientEnd w.nextConn] ∧
    (∀ p, Event.unlink p ∉ newEvents w (downloadHandler env req w).2) := by
  have hguard : (!(decide (req.user.role = "admin")) && decide (file.user_id ≠ req.user.id))
      = false := by
    rcases hperm with h | h <;> simp [h]
  have hread : readLocal (interfere env (tempPath req.param w.now file.filename)
      (fetchDone file.ftp_path (tempPath req.param w.now file.filename) b w))
      (tempPath req.param w.now file.filename) = some b := by
    simp [interfere, hlost, readLocal, fetchDone, ftpDone, List.lookup]
  have hdrained : streamDrained b.length chunks = false := by
    unfold streamDrained
    rcases hearly with h | h
    · simp [h]
    · have : ¬ b.length ≤ chunks * readChunkSize := by omega
      simp [this]
  have hout : downloadHandler env req w =
      ({ status := 200, headers := downloadHeaders env file b.length,
         payload := Payload.stream (b.take (chunks * readChunkSize)) },
        interfere env (tempPath req.param w.now file.filename)
          (fetchDone file.ftp_path (tempPath req.param w.now file.filename) b w)) := by
    simp only [downloadHandler, hfind, hguard,
      downloadFile_ok env file.ftp_path _ b w hconn hrem hwrite hobj, hread, hstream, hdrained]
    simp
  have hnew : newEvents w (downloadHandler env req w).2 =
      [Event.connect w.nextConn true, Event.get w.nextConn file.ftp_path true,
       Event.clientEnd w.nextConn] := by
    rw [hout]
    exact newEvents_append w _ _ (by rw [interfere_log]; rfl)
  refine ⟨?_, ?_, hnew, fun p hp => ?_⟩
  · rw [hout]
    simp only [existsSync]
    have := hread
    simp only [readLocal] at this
    rw [this]
    rfl
  · rw [hout]
    exact hread
  · rw [hnew] at hp
    simp at hp

set_option maxRecDepth 8192 in
/-- Witness of C5: user 7 downloads record 1 and the client closes the response
before the first chunk; the temporary file `temp/download_1_0_report.pdf` stays
on the disk.  When the close comes after the one chunk of the 1,024-byte file
was handed over, the stream still ends and the file is unlinked, as it is when
the stream ends normally, when the server refuses the fetch and when the stream
raises an error. -/
theorem download_abort_leaves_temp_file_witness :
    tempPath "1" 0 "report.pdf" = "temp/download_1_0_report.pdf" ∧
    existsSync (downloadHandler clientAborts reportDownload uploadedWorld).2
      (tempPath "1" 0 "report.pdf") = true ∧
    (∀ p, Event.unlink p ∉
      newEvents uploadedWorld (downloadHandler clientAborts reportDownload uploadedWorld).2) ∧
    existsSync (downloadHandler clientAbortsLate reportDownload uploadedWorld).2
      "temp/download_1_0_report.pdf" = false ∧
    existsSync (downloadHandler Env.healthy reportDownload uploadedWorld).2
      "temp/download_1_0_report.pdf" = false ∧
    existsSync (downloadHandler serverRefuses reportDownload uploadedWorld).2
      "temp/download_1_0_report.pdf" = false ∧
    existsSync (downloadHandler streamBreaks reportDownload uploadedWorld).2
      "temp/download_1_0_report.pdf" = false :=
  have h := download_abort_leaves_temp_file clientAborts reportDownload uploadedWorld
    (uploadRecord 1 reportUpload reportPdf "/users/7/report.pdf") pdfBytes 0 (by decide)
    (Or.inr rfl) rfl rfl rfl rfl rfl rfl (Or.inl rfl)
  ⟨by decide, h.1, h.2.2.2, by decide, by decide, by decide, by decide⟩

/-- Counterexample to C13 as stated.  User 7 downloads record 1 through
`/download/1` and the client closes the response before the first chunk, so
that the temporary file is still in place; with the clock at the same
millisecond the administrator downloads the same record through `/download/1`.
Both requests are allocated `temp/download_1_0_report.pdf`: the second one
writes to the file of the first and unlinks it. -/
theorem same_millisecond_downloads_collide :
    abortedDownloadWorld.now = uploadedWorld.now ∧
    tempPath reportDownload.param uploadedWorld.now "report.pdf" =
      tempPath adminDownload.param abortedDownloadWorld.now "report.pdf" ∧
    existsSync abortedDownloadWorld "temp/download_1_0_report.pdf" = true ∧
    Event.unlink "temp/download_1_0_report.pdf" ∈ newEvents abortedDownloadWorld
      (downloadHandler Env.healthy adminDownload abortedDownloadWorld).2 ∧
    existsSync (downloadHandler Env.healthy adminDownload abortedDownloadWorld).2
      "temp/download_1_0_report.pdf" = false := by
  decide

/-- C13, amended (temporary path).  The temporary path of a permitted download
is `path.join` of the `temp` directory and
`download_{fileId}_{now}_{filename}`, for the text of the `fileId` parameter of
the request, the clock reading at the start of the request and the stored
filename of the record: this is the only path the handler unlinks.  It depends
on nothing else, so two downloads with the same parameter text, millisecond and
stored filename are allocated the same path.  When neither the parameter texts
nor the stored filenames contain `/`: two downloads through the same parameter
text are allocated the same path exactly when they start in the same
millisecond and have the same stored filename; and two downloads whose
parameter texts contain no `_` are allocated the same path exactly when
parameter text, millisecond and stored filename all coincide. -/
theorem temp_path_allocation (env1 env2 : Env) (req1 req2 : DownloadRequest) (w1 w2 : World)
    (file1 file2 : File)
    (hfind1 : findFileByPk w1 req1.fileId = some file1)
    (hperm1 : req1.user.role = "admin" ∨ file1.user_id = req1.user.id)
    (hfind2 : findFileByPk w2 req2.fileId = some file2)
    (hperm2 : req2.user.role = "admin" ∨ file2.user_id = req2.user.id)
    (hparam1 : '/' ∉ req1.param.data) (hparam2 : '/' ∉ req2.param.data)
    (hname1 : '/' ∉ file1.filename.data) (hname2 : '/' ∉ file2.filename.data) :
    (∀ p, Event.unlink p ∈ newEvents w1 (downloadHandler env1 req1 w1).2 →
      p = tempPath req1.param w1.now file1.filename) ∧
    (∀ p, Event.unlink p ∈ newEvents w2 (downloadHandler env2 req2 w2).2 →
      p = tempPath req2.param w2.now file2.filename) ∧
    (req1.param = req2.param → w1.now = w2.now → file1.filename = file2.filename →
      tempPath req1.param w1.now file1.filename = tempPath req2.param w2.now file2.filename) ∧
    (req1.param = req2.param →
      (tempPath req1.param w1.now file1.filename = tempPath req2.param w2.now file2.filename ↔
        w1.now = w2.now ∧ file1.filename = file2.filename)) ∧
    ('_' ∉ req1.param.data → '_' ∉ req2.param.data →
      (tempPath req1.param w1.now file1.filename = tempPath req2.param w2.now file2.filename ↔
        req1.param = req2.param ∧ w1.now = w2.now ∧ file1.filename = file2.filename)) := by
  refine ⟨download_unlink_path env1 req1 w1 file1 hfind1 hperm1,
    download_unlink_path env2 req2 w2 file2 hfind2 hperm2, ?_, ?_, ?_⟩
  · intro h1 h2 h3
    rw [h1, h2, h3]
  · intro h
    rw [h]
    exact tempPath_same_param req2.param w1.now w2.now file1.filename file2.filename hparam2
      hname1 hname2
  · intro hu1 hu2
    exact tempPath_inj req1.param req2.param w1.now w2.now file1.filename file2.filename
      hparam1 hparam2 hu1 hu2 hname1 hname2

/-- Witness of C13 amended, on record 1 (`report.pdf`): two downloads through
`/download/1` that start five milliseconds apart are allocated different
temporary paths, and so are, in one millisecond, a download through
`/download/1` and one through `/download/01`. -/
theorem temp_path_allocation_witness :
    tempPath "1" uploadedWorld.now "report.pdf" ≠ tempPath "1" laterWorld.now "report.pdf" ∧
    tempPath "1" uploadedWorld.now "report.pdf" ≠ tempPath "01" uploadedWorld.now "report.pdf" ∧
    findFileByPk uploadedWorld paddedDownload.fileId =
      findFileByPk uploadedWorld reportDownload.fileId :=
  have h := temp_path_allocation Env.healthy Env.healthy reportDownload adminDownload
    uploadedWorld laterWorld (uploadRecord 1 reportUpload reportPdf "/users/7/report.pdf")
    (uploadRecord 1 reportUpload reportPdf "/users/7/report.pdf") (by decide) (Or.inr rfl)
    (by decide) (Or.inl rfl) (by decide) (by decide) (by decide) (by decide)
  have h2 := temp_path_allocation Env.healthy Env.healthy reportDownload paddedDownload
    uploadedWorld uploadedWorld (uploadRecord 1 reportUpload reportPdf "/users/7/report.pdf")
    (uploadRecord 1 reportUpload reportPdf "/users/7/report.pdf") (by decide) (Or.inr rfl)
    (by decide) (Or.inr rfl) (by decide) (by decide) (by decide) (by decide)
  ⟨fun heq => absurd (((h.2.2.2.1 rfl).1 heq).1) (by decide),
    fun heq => absurd (((h2.2.2.2.2 (by decide) (by decide)).1 heq).1) (by decide), rfl⟩

end ShCloud
